import Mathlib

/-!
Verification of the disaster data extraction and enrichment pipeline
(`src/glide/data_extractors.py`, `src/glide/find_incident.py`,
`src/glide/fl_glide_lookup.py`) against its natural-language specification.

The Python code is shallowly embedded: Python dictionaries become ordered
association lists, Python `int`/`float` become `Int`/`Rat`, fallible code
returns `Option`/`Except`, and compiled regular expressions are abstracted
as matcher functions `String → Option MatchData` (the cascade logic, match
processing, validation, scoring and merging are translated concretely).
-/

namespace Glide

/-- A Python value as it occurs in the extraction dictionaries:
integers, floats (modelled exactly as rationals), strings, booleans,
or lists of strings (`key_facts`). -/
inductive PyVal : Type where
  | int (n : Int)
  | float (q : Rat)
  | str (s : String)
  | bool (b : Bool)
  | list (l : List String)
  deriving DecidableEq, Repr

/-- A Python dictionary with string keys, in insertion order.  A value of
`none` models a key that is present but bound to Python `None`. -/
abbrev Dict := List (String × Option PyVal)

/-- `d[k]` lookup: `none` means the key is absent, `some none` means the
key is bound to `None`. -/
def dictLookup (d : Dict) (k : String) : Option (Option PyVal) :=
  match d with
  | [] => none
  | (k', v) :: rest => if k' = k then some v else dictLookup rest k

/-- `d[k] = v` assignment: updates the first binding of `k` in place, or
appends a new binding (Python dicts preserve insertion order). -/
def dictSet (d : Dict) (k : String) (v : Option PyVal) : Dict :=
  match d with
  | [] => [(k, v)]
  | (k', v') :: rest => if k' = k then (k', v) :: rest else (k', v') :: dictSet rest k v

/-- Numeric view of a `PyVal`, for Python comparison operators: defined on
ints and floats, undefined (Python `TypeError`) otherwise. -/
def PyVal.toRat? : PyVal → Option Rat
  | .int n => some (n : Rat)
  | .float q => some q
  | _ => none

/-- The numeric value of a digit list, most significant first. -/
def digitsToNat (l : List Char) : Nat :=
  l.foldl (fun acc c => acc * 10 + (c.toNat - '0'.toNat)) 0

/-- Python `int(s)` on the digit strings captured by the regex groups:
succeeds exactly on nonempty all-digit strings. -/
def parseIntDigits (s : String) : Option Int :=
  if s.data ≠ [] ∧ s.data.all (fun c => c.isDigit) then
    some (digitsToNat s.data : Int)
  else none

/-- Split a character list on a separator character (the pieces between
occurrences, like Python `str.split(sep)`). -/
def splitOnChar (l : List Char) (sep : Char) : List (List Char) :=
  match l with
  | [] => [[]]
  | c :: rest =>
    if c = sep then [] :: splitOnChar rest sep
    else
      match splitOnChar rest sep with
      | [] => [[c]]
      | piece :: pieces => (c :: piece) :: pieces

/-- Python `float(s)` on the shapes captured by the regex groups
(`digits` or `digits.digits`, a leading or trailing bare dot allowed),
returning the exact rational value. -/
def parseFloatDigits (s : String) : Option Rat :=
  match splitOnChar s.data '.' with
  | [intPart] =>
    if intPart ≠ [] ∧ intPart.all (fun c => c.isDigit) then
      some ((digitsToNat intPart : Int) : Rat)
    else none
  | [intPart, fracPart] =>
    if intPart = [] ∧ fracPart = [] then none
    else if (intPart.all (fun c => c.isDigit)) ∧ (fracPart.all (fun c => c.isDigit)) then
      some ((digitsToNat intPart : Rat)
        + (digitsToNat fracPart : Rat) / ((10 : Rat) ^ fracPart.length))
    else none
  | _ => none

/-- `s.replace(',', '.')`, as used by `_process_match` to normalise a
decimal comma. -/
def replaceCommaDot (s : String) : String :=
  ⟨s.data.map (fun c => if c = ',' then '.' else c)⟩

/-- Drop every occurrence of a character (models
`.replace('.', '').replace(',', '')`). -/
def dropChars (s : String) (cs : List Char) : String :=
  ⟨s.data.filter (fun c => c ∉ cs)⟩

/-- Python `str.lower()` (ASCII case folding suffices here). -/
def lowerString (s : String) : String :=
  ⟨s.data.map Char.toLower⟩

end Glide

namespace Glide

/-- The data `re.Match` exposes to `_process_match`: `group(0)` is the full
match, `group(1)` the first capture group. -/
structure MatchData : Type where
  group0 : String
  group1 : String
  deriving DecidableEq, Repr

/-- A compiled pattern, abstracted as its `.search` behaviour on the clean
text: `none` when the pattern does not match anywhere in the text. -/
abbrev Matcher := String → Option MatchData

/-- The field names of `WebDataExtractor.patterns`, in the dictionary's
fixed iteration (insertion) order. -/
def patternFields : List String :=
  ["affected", "deaths", "displaced", "precipitation", "economic_loss", "water_level"]

/-- Python `in` on lowercased text (substring test), used by
`_process_match` for the monetary multiplier words. -/
def strContains (hay needle : String) : Bool :=
  (List.range (hay.data.length + 1)).any
    (fun i => ((hay.data.drop i).take needle.data.length) = needle.data)

/-- `WebDataExtractor._process_match`: converts a regex match to a typed
value depending on the field; any parse failure yields `None`. -/
def processMatch (m : MatchData) (fieldName : String) : Option PyVal :=
  if fieldName = "affected" ∨ fieldName = "deaths" ∨ fieldName = "displaced" then
    -- remove thousands separators and convert to int
    (parseIntDigits (dropChars m.group1 ['.', ','])).map PyVal.int
  else if fieldName = "precipitation" ∨ fieldName = "water_level" then
    -- convert to float, decimal comma normalised to a dot
    (parseFloatDigits (replaceCommaDot m.group1)).map PyVal.float
  else if fieldName = "economic_loss" then
    (parseFloatDigits (replaceCommaDot m.group1)).map (fun v =>
      let text := lowerString m.group0
      let v := if strContains text "bilh" ∨ strContains text "billion" then v * 1000000000
               else if strContains text "milh" ∨ strContains text "million" then v * 1000000
               else v
      PyVal.float v)
  else none

/-- The inner loop of `_extract_with_patterns` for one field: try each
pattern in order; the first one whose match processes to a non-`None`
value wins (a match that fails to process does not stop the cascade). -/
def firstValidPattern (pats : List Matcher) (fieldName : String) (text : String) : Option PyVal :=
  match pats with
  | [] => none
  | p :: rest =>
    match p text with
    | some m =>
      match processMatch m fieldName with
      | some v => some v
      | none => firstValidPattern rest fieldName text
    | none => firstValidPattern rest fieldName text

/-- One iteration of the outer loop of `_extract_with_patterns`: record
the field's first valid pattern value, if any. -/
def extractStep (patterns : String → List Matcher) (text : String)
    (results : List (String × PyVal)) (fieldName : String) : List (String × PyVal) :=
  match firstValidPattern (patterns fieldName) fieldName text with
  | some v => results ++ [(fieldName, v)]
  | none => results

/-- `WebDataExtractor._extract_with_patterns`: for each field, in the fixed
field order, record the first valid pattern value (if any). -/
def extractWithPatterns (patterns : String → List Matcher) (text : String) :
    List (String × PyVal) :=
  patternFields.foldl (extractStep patterns text) []

/-- The merge loop in `extract_from_url` (lines 117-120): a cascade value is
written only when the key is absent from the report data or bound to `None`. -/
def mergePatternData (data : Dict) (patternData : List (String × PyVal)) : Dict :=
  patternData.foldl (fun d kv =>
    if dictLookup d kv.1 = none ∨ dictLookup d kv.1 = some none then
      dictSet d kv.1 (some kv.2)
    else d) data

/-- The `numeric_validations` plausible-range table of
`_calculate_confidence_scores`, in source order. -/
def numericValidations : List (String × Rat × Rat) :=
  [("affected_population", 0, 10000000),
   ("deaths", 0, 10000),
   ("displaced", 0, 1000000),
   ("injured", 0, 100000),
   ("precipitation_mm", 0, 2000),
   ("temperature_c", -50, 60),
   ("wind_speed_kmh", 0, 400),
   ("water_level", 0, 50),
   ("economic_loss_usd", 0, 100000000000)]

/-- The text fields scored by `_calculate_confidence_scores`. -/
def textConfidenceFields : List String := ["location_details", "description", "summary"]

/-- Python truthiness for the values stored in extraction dictionaries
(`if field in data and data[field]:`). -/
def PyVal.truthy : PyVal → Bool
  | .int n => n ≠ 0
  | .float q => q ≠ 0
  | .str s => s ≠ ""
  | .bool b => b
  | .list l => l ≠ []

/-- Python `len(str(value))`.  The scored text fields only ever hold
strings in the source; the other cases model `str()` of the remaining
value shapes. -/
def PyVal.strLen : PyVal → Nat
  | .str s => s.length
  | .int n => (toString n).length
  | .float q => (toString q).length
  | .bool b => if b then 4 else 5
  | .list l => l.length

/-- The numeric loop of `_calculate_confidence_scores`: a field present
with a non-`None` value is scored 0.8 strictly inside its range, 0.6 on a
boundary, 0.3 outside; comparing a non-numeric value raises a Python
`TypeError`, modelled as `Except.error`. -/
def confNumeric (valids : List (String × Rat × Rat)) (data : Dict) :
    Except String (List (String × Rat)) :=
  match valids with
  | [] => .ok []
  | (f, mn, mx) :: rest =>
    match dictLookup data f with
    | some (some v) =>
      match v.toRat? with
      | none => .error "TypeError: comparison not supported"
      | some q =>
        match confNumeric rest data with
        | .error e => .error e
        | .ok tail =>
          .ok ((f, if mn ≤ q ∧ q ≤ mx then (if mn < q ∧ q < mx then 0.8 else 0.6) else 0.3)
               :: tail)
    | _ => confNumeric rest data

/-- The text loop of `_calculate_confidence_scores`: a truthy text field
scores 0.8 when its `len(str(...))` is in [10, 1000], else 0.5. -/
def confText (fields : List String) (data : Dict) : List (String × Rat) :=
  fields.filterMap (fun f =>
    match dictLookup data f with
    | some (some v) =>
      if v.truthy then
        some (f, if 10 ≤ v.strLen ∧ v.strLen ≤ 1000 then 0.8 else 0.5)
      else none
    | _ => none)

/-- `WebDataExtractor._calculate_confidence_scores`: numeric scores from
the plausible-range table followed by text-field scores. -/
def calculateConfidenceScores (data : Dict) : Except String (List (String × Rat)) :=
  match confNumeric numericValidations data with
  | .error e => .error e
  | .ok nums => .ok (nums ++ confText textConfidenceFields data)

/-- Python `str.strip()` (whitespace trim at both ends). -/
def pyStrip (s : String) : String :=
  ⟨((s.data.dropWhile Char.isWhitespace).reverse.dropWhile Char.isWhitespace).reverse⟩

/-- `re.sub(r'\s+', ' ', s)`: collapse runs of whitespace to one space. -/
def collapseWs (s : String) : String :=
  ⟨(s.data.foldl (fun (acc : List Char × Bool) c =>
      if c.isWhitespace then (if acc.2 then acc.1 else acc.1 ++ [' '], true)
      else (acc.1 ++ [c], false)) ([], false)).1⟩

/-- Python `round(q, 2)` (round half to even at two decimals). -/
def round2 (q : Rat) : Rat :=
  let s : Rat := q * 100
  let n : Int := ⌊s⌋
  let frac : Rat := s - (n : Rat)
  let r : Int :=
    if frac > 1/2 then n + 1
    else if frac < 1/2 then n
    else if n % 2 = 0 then n else n + 1
  (r : Rat) / 100

/-- One entry of `_validate_and_clean_data`: `none` when the entry is
dropped.  Strings are stripped, whitespace-collapsed and truncated;
negative numbers are dropped except for coordinates; floats are rounded
to two decimals except for coordinates; lists are purged of blank items
and dropped when empty.  (Python treats `bool` as an `int`: it reaches the
numeric branch, where it is never negative and never rounded.) -/
def cleanValue (k : String) (v : PyVal) : Option PyVal :=
  match v with
  | .str s =>
    if pyStrip s = "" then none
    else
      let s := collapseWs (pyStrip s)
      some (.str (if s.data.length > 5000 then String.mk (s.data.take 5000) ++ "..." else s))
  | .int n =>
    if n < 0 ∧ ¬(k = "latitude" ∨ k = "longitude") then none else some (.int n)
  | .float q =>
    if q < 0 ∧ ¬(k = "latitude" ∨ k = "longitude") then none
    else some (.float (if k = "latitude" ∨ k = "longitude" then q else round2 q))
  | .bool b => some (.bool b)
  | .list l =>
    let l := l.filter (fun item => item ≠ "" ∧ pyStrip item ≠ "")
    if l = [] then none else some (.list l)

/-- `WebDataExtractor._validate_and_clean_data`: rebuilds the dictionary,
skipping `None` values and entries whose cleaning drops them. -/
def validateAndCleanData (data : Dict) : Dict :=
  data.foldr (fun (kv : String × Option PyVal) cleaned =>
    match kv.2 with
    | none => cleaned
    | some v =>
      match cleanValue kv.1 v with
      | none => cleaned
      | some v' => (kv.1, some v') :: cleaned) []

/-- `ExtractionReport` (the dataclass of `data_extractors.py`); the
wall-clock `extraction_time` is not modelled. -/
structure ExtractionReport : Type where
  url : String
  success : Bool
  data : Dict
  errors : List String
  confidence_scores : List (String × Rat)
  deriving DecidableEq, Repr

/-- The collaborators of `extract_from_url`, abstracted: `fetch` is
`_fetch_with_retry` (`none` after all retries fail), `domainExtract` the
host-dispatched strategy of step 4 applied to the page, `patterns` the
compiled pattern table, `cleanText` is `_extract_clean_text`, `netloc`
is `urlparse(url).netloc`, `now` the timestamp string. -/
structure ExtractWorld : Type where
  fetch : String → Option String
  domainExtract : String → String → Dict
  patterns : String → List Matcher
  cleanText : String → String
  netloc : String → String
  now : String

/-- The metadata attachment of `extract_from_url` (lines 129-131). -/
def addMetadata (data : Dict) (url now domain : String) : Dict :=
  dictSet (dictSet (dictSet data "source_url" (some (.str url)))
      "extraction_timestamp" (some (.str now)))
    "source_domain" (some (.str domain))

/-- Lookup in the extractor's URL-keyed report cache. -/
def cacheLookup (cache : List (String × ExtractionReport)) (url : String) :
    Option ExtractionReport :=
  match cache with
  | [] => none
  | (u, r) :: rest => if u = url then some r else cacheLookup rest url

/-- `self.cache[url] = report`. -/
def cacheSet (cache : List (String × ExtractionReport)) (url : String)
    (r : ExtractionReport) : List (String × ExtractionReport) :=
  match cache with
  | [] => [(url, r)]
  | (u, r') :: rest =>
    if u = url then (u, r) :: rest else (u, r') :: cacheSet rest url r

/-- `WebDataExtractor.extract_from_url`: cache check, fetch with retry,
domain-specific extraction, regex-cascade fill-in of missing fields,
confidence scoring, validation and metadata; every failure is turned into
a `success = false` report (never an exception), and only successful
reports are cached.  Returns the report and the updated cache. -/
def extractFromUrl (w : ExtractWorld) (cache : List (String × ExtractionReport))
    (url : String) (forceRefresh : Bool) : ExtractionReport × List (String × ExtractionReport) :=
  let report0 : ExtractionReport :=
    { url := url, success := false, data := [], errors := [], confidence_scores := [] }
  match forceRefresh, cacheLookup cache url with
  | false, some cached => (cached, cache)
  | _, _ =>
    match w.fetch url with
    | none =>
      ({ report0 with errors := ["Falha ao buscar conteudo da URL"] }, cache)
    | some html =>
      let textContent := w.cleanText html
      let domain := w.netloc url
      let data1 := w.domainExtract domain html
      let patternData := extractWithPatterns w.patterns textContent
      let data2 := mergePatternData data1 patternData
      match calculateConfidenceScores data2 with
      | .error e =>
        -- an exception inside the try block: report returned, not cached
        ({ report0 with data := data2, errors := ["Erro de extracao: " ++ e] }, cache)
      | .ok scores =>
        let data3 := validateAndCleanData data2
        let data4 := addMetadata data3 url w.now domain
        let report : ExtractionReport :=
          { url := url, success := true, data := data4, errors := [],
            confidence_scores := scores }
        (report, cacheSet cache url report)

/-- One attempt's outcome as seen by `_fetch_with_retry`:
`requests.exceptions.Timeout`, another transport-level
`RequestException`, or an HTTP response with a status code. -/
inductive FetchOutcome : Type where
  | timeout
  | transportError
  | response (status : Nat) (body : String)
  deriving DecidableEq, Repr

/-- `response.raise_for_status()` raises `HTTPError` exactly for status
codes in [400, 600); `HTTPError` is a `RequestException`, so it is caught
by the generic retry branch of `_fetch_with_retry`. -/
def raisesForStatus (status : Nat) : Bool := 400 ≤ status ∧ status < 600

/-- The retry loop of `_fetch_with_retry` starting at `attempt`, with
`fuel` remaining iterations of `range(max_retries)`.  On any caught
exception the loop sleeps `2 ** attempt` (recorded in the returned delay
list) unless this was the last attempt, then retries.  Returns the body on
the first non-error response; `none` once all attempts are exhausted. -/
def fetchRetryGo (outcomes : Nat → FetchOutcome) (maxRetries : Nat) :
    Nat → Nat → Option String × List Rat
  | _, 0 => (none, [])
  | attempt, fuel + 1 =>
    let retryStep : Option String × List Rat :=
      if attempt < maxRetries - 1 then
        let (r, ds) := fetchRetryGo outcomes maxRetries (attempt + 1) fuel
        (r, ((2 : Rat) ^ attempt) :: ds)
      else (none, [])
    match outcomes attempt with
    | .response status body =>
      if raisesForStatus status then retryStep else (some body, [])
    | .timeout => retryStep
    | .transportError => retryStep

/-- `WebDataExtractor._fetch_with_retry` (`max_retries` attempts; the
constructor default is 3): returns the fetched body or `none`, together
with the backoff delays slept between attempts. -/
def fetchWithRetry (outcomes : Nat → FetchOutcome) (maxRetries : Nat) :
    Option String × List Rat :=
  fetchRetryGo outcomes maxRetries 0 maxRetries

/-- `SearchResult` (dataclass of `find_incident.py`; optional fields
omitted — they play no role in the verified properties). -/
structure SearchResult : Type where
  title : String
  link : String
  snippet : String
  display_link : String
  formatted_url : String
  deriving DecidableEq, Repr

/-- `SearchResponse`: `nextPage` models `queries.get('nextPage')` —
`none` when the key is missing or the list is empty (falsy), otherwise
`some si` where `si` models `nextPage[0].get('startIndex')`. -/
structure SearchResponse : Type where
  total_results : Int
  search_time : Rat
  items : List SearchResult
  nextPage : Option (Option Int)
  deriving DecidableEq, Repr

/-- An HTTP response as delivered by the transport. -/
structure HttpResponse : Type where
  status : Nat
  body : String
  deriving DecidableEq, Repr

/-- The exceptions `search_incident` can raise: `ValueError` on an empty
identifier (not a `SearchError`!), `APIError` (with optional status code
and body), and `SearchError` for format/unexpected failures. -/
inductive SearchExc : Type where
  | valueError (msg : String)
  | apiError (msg : String) (statusCode : Option Nat) (responseBody : Option String)
  | searchError (msg : String)
  deriving DecidableEq, Repr

/-- Status codes retried by the session's `Retry` strategy
(`status_forcelist` in `_create_session`). -/
def statusForcelist : List Nat := [429, 500, 502, 503, 504]

/-- `Config.MAX_RETRIES`. -/
def configMaxRetries : Nat := 3

/-- The urllib3 `Retry` behaviour of the session created by
`_create_session`: walk the stream of responses the server would return;
a status in the forcelist consumes one retry, any other status is
returned at once.  When the retries are exhausted (or the stream ends,
modelling a connection failure) a `RequestException` is raised, reported
as `Except.error` with the message text. -/
def sessionGetWithRetry (forcelist : List Nat) (total : Nat) :
    List HttpResponse → Except String HttpResponse
  | [] => .error "connection error"
  | r :: rest =>
    if r.status ∈ forcelist then
      match total with
      | 0 => .error "Max retries exceeded"
      | t + 1 => sessionGetWithRetry forcelist t rest
    else .ok r

/-- `IncidentSearchService.search_incident`: empty identifiers raise
`ValueError`; the session request is retried per `statusForcelist` up to
`Config.MAX_RETRIES`; a non-200 final status raises `APIError` carrying
the status code and body; an unparsable body raises `SearchError`;
otherwise the parsed `SearchResponse` is returned.  `parse` abstracts
`response.json()` + `SearchResponse.from_dict`. -/
def searchIncident (glideNumber : String) (parse : String → Option SearchResponse)
    (responses : List HttpResponse) : Except SearchExc SearchResponse :=
  if glideNumber = "" then .error (.valueError "Glide Number cannot be empty")
  else
    match sessionGetWithRetry statusForcelist configMaxRetries responses with
    | .error msg => .error (.apiError ("Request failed: " ++ msg) none none)
    | .ok r =>
      if r.status ≠ 200 then
        .error (.apiError ("API request failed with status " ++ toString r.status)
          (some r.status) (some r.body))
      else
        match parse r.body with
        | none => .error (.searchError "Invalid response format")
        | some resp => .ok resp

/-- The loop of `search_all_pages`, with `search_incident` abstracted as
an oracle from the `start` index to its outcome.  `except SearchError`
catches `APIError` and `SearchError` but not `ValueError`, which
propagates (the `Except.error` result).  `fuel` bounds the iterations;
every iteration that recurses strictly grows `acc`, so
`fuel = maxResults + 1` always suffices. -/
def searchAllPagesGo (oracle : Int → Except SearchExc SearchResponse) (maxResults : Nat) :
    List SearchResult → Int → Nat → Except String (List SearchResult)
  | acc, _, 0 => .ok (acc.take maxResults)
  | acc, start, fuel + 1 =>
    if acc.length < maxResults then
      match oracle start with
      | .error (.valueError msg) => .error msg
      | .error _ => .ok (acc.take maxResults)
      | .ok resp =>
        if resp.items = [] then .ok (acc.take maxResults)
        else
          let acc' := acc ++ resp.items
          match resp.nextPage with
          | none => .ok (acc'.take maxResults)
          | some si => searchAllPagesGo oracle maxResults acc' (si.getD (start + 10)) fuel
    else .ok (acc.take maxResults)

/-- `IncidentSearchService.search_all_pages` (default `max_results=100`). -/
def searchAllPages (oracle : Int → Except SearchExc SearchResponse) (maxResults : Nat) :
    Except String (List SearchResult) :=
  searchAllPagesGo oracle maxResults [] 1 (maxResults + 1)

/-- `DisasterFeatures` (dataclass of `fl_glide_lookup.py`), with its exact
46 fields in source order.  The seven leading fields are required and
never `None`; the 37 optional fields default to `None`; Python datetimes
are modelled by their timestamps. -/
structure DisasterFeatures : Type where
  glide : String
  disaster_type : String
  event_date : Rat
  season : String
  month : Int
  year : Int
  location : String
  days_since_last_event : Option PyVal := none
  latitude : Option PyVal := none
  longitude : Option PyVal := none
  region : Option PyVal := none
  state : Option PyVal := none
  precipitation_mm : Option PyVal := none
  precipitation_7d_mm : Option PyVal := none
  precipitation_30d_mm : Option PyVal := none
  temperature_c : Option PyVal := none
  temperature_max_c : Option PyVal := none
  temperature_min_c : Option PyVal := none
  humidity_percent : Option PyVal := none
  wind_speed_kmh : Option PyVal := none
  wind_max_kmh : Option PyVal := none
  atmospheric_pressure_hpa : Option PyVal := none
  affected_population : Option PyVal := none
  deaths : Option PyVal := none
  injured : Option PyVal := none
  displaced : Option PyVal := none
  economic_loss_usd : Option PyVal := none
  previous_events_30d : Option PyVal := none
  previous_events_90d : Option PyVal := none
  urbanization_index : Option PyVal := none
  vulnerability_index : Option PyVal := none
  human_development_index : Option PyVal := none
  gdp_per_capita_brl : Option PyVal := none
  population : Option PyVal := none
  elevation : Option PyVal := none
  enso_phase : Option PyVal := none
  days_in_year : Option PyVal := none
  week_of_year : Option PyVal := none
  is_weekend : Option PyVal := none
  weather_station_distance_km : Option PyVal := none
  weather_station_name : Option PyVal := none
  news_sentiment_score : Option PyVal := none
  social_media_mentions : Option PyVal := none
  emergency_response_time_hours : Option PyVal := none
  data_quality_score : PyVal := .float 0
  extraction_timestamp : PyVal := .float 0
  deriving DecidableEq, Repr

/-- `dataclasses.asdict` on a `DisasterFeatures`, in declaration order
(this is also what `to_ml_dict` produces, with datetimes as timestamps). -/
def featureEntries (f : DisasterFeatures) : List (String × Option PyVal) :=
  [("glide", some (.str f.glide)),
   ("disaster_type", some (.str f.disaster_type)),
   ("event_date", some (.float f.event_date)),
   ("season", some (.str f.season)),
   ("month", some (.int f.month)),
   ("year", some (.int f.year)),
   ("location", some (.str f.location)),
   ("days_since_last_event", f.days_since_last_event),
   ("latitude", f.latitude),
   ("longitude", f.longitude),
   ("region", f.region),
   ("state", f.state),
   ("precipitation_mm", f.precipitation_mm),
   ("precipitation_7d_mm", f.precipitation_7d_mm),
   ("precipitation_30d_mm", f.precipitation_30d_mm),
   ("temperature_c", f.temperature_c),
   ("temperature_max_c", f.temperature_max_c),
   ("temperature_min_c", f.temperature_min_c),
   ("humidity_percent", f.humidity_percent),
   ("wind_speed_kmh", f.wind_speed_kmh),
   ("wind_max_kmh", f.wind_max_kmh),
   ("atmospheric_pressure_hpa", f.atmospheric_pressure_hpa),
   ("affected_population", f.affected_population),
   ("deaths", f.deaths),
   ("injured", f.injured),
   ("displaced", f.displaced),
   ("economic_loss_usd", f.economic_loss_usd),
   ("previous_events_30d", f.previous_events_30d),
   ("previous_events_90d", f.previous_events_90d),
   ("urbanization_index", f.urbanization_index),
   ("vulnerability_index", f.vulnerability_index),
   ("human_development_index", f.human_development_index),
   ("gdp_per_capita_brl", f.gdp_per_capita_brl),
   ("population", f.population),
   ("elevation", f.elevation),
   ("enso_phase", f.enso_phase),
   ("days_in_year", f.days_in_year),
   ("week_of_year", f.week_of_year),
   ("is_weekend", f.is_weekend),
   ("weather_station_distance_km", f.weather_station_distance_km),
   ("weather_station_name", f.weather_station_name),
   ("news_sentiment_score", f.news_sentiment_score),
   ("social_media_mentions", f.social_media_mentions),
   ("emergency_response_time_hours", f.emergency_response_time_hours),
   ("data_quality_score", some f.data_quality_score),
   ("extraction_timestamp", some f.extraction_timestamp)]

/-- The bookkeeping fields excluded from the completeness count. -/
def isBookkeepingField (name : String) : Bool :=
  name = "extraction_timestamp" ∨ name = "data_quality_score"

/-- `EnhancedDisasterInfo.calculate_completeness`: counts total and filled
fields over `asdict(self.features)`, skipping the bookkeeping fields, and
returns the ratio (0.0 when there are no features). -/
def calculateCompleteness (features : Option DisasterFeatures) : Rat :=
  match features with
  | none => 0
  | some f =>
    let counts : Nat × Nat :=
      (featureEntries f).foldl (fun acc e =>
        if isBookkeepingField e.1 then acc
        else (acc.1 + 1, if e.2.isSome then acc.2 + 1 else acc.2)) (0, 0)
    if counts.1 > 0 then (counts.2 : Rat) / (counts.1 : Rat) else 0

/-- The slice of `EnhancedDisasterInfo` that `prepare_for_training`
consults: the optional features and the cached `data_completeness`. -/
structure EnhancedDisasterInfo : Type where
  features : Option DisasterFeatures
  data_completeness : Rat
  deriving DecidableEq, Repr

/-- `MLReadyDataset.prepare_for_training`: rebuilds the feature matrix
from the disasters whose features exist and whose completeness exceeds
the fixed 0.6 threshold. -/
def prepareForTraining (disasters : List EnhancedDisasterInfo) :
    List (List (String × Option PyVal)) :=
  disasters.foldl (fun matrix d =>
    match d.features with
    | some f => if d.data_completeness > 0.6 then matrix ++ [featureEntries f] else matrix
    | none => matrix) []

/-- The web-data merge loop of `fetch_and_analyze_floods` (lines 545-550)
for one source report: a per-source value is copied into the accumulating
merged map only when the key is absent or currently `None`. -/
def mergeWebSource (merged : Dict) (sourceData : Dict) : Dict :=
  sourceData.foldl (fun acc kv =>
    if dictLookup acc kv.1 = none ∨ dictLookup acc kv.1 = some none then
      dictSet acc kv.1 kv.2
    else acc) merged

/-- The full merge over the per-source reports of one event, in source
order (`raw_web_data` preserves the order sources were processed in). -/
def mergeWebData (merged : Dict) (sources : List Dict) : Dict :=
  sources.foldl mergeWebSource merged

/-- `str(value)` for the value shapes that occur in the feature dicts
(only strings occur for the fields this is applied to). -/
def PyVal.asStr : PyVal → String
  | .str s => s
  | .int n => toString n
  | .float q => toString q
  | .bool b => if b then "True" else "False"
  | .list _ => "[...]"

/-- `features_dict.get(key)`: `None` both when the key is absent and when
it is bound to `None`. -/
def dictGet (d : Dict) (k : String) : Option PyVal :=
  match dictLookup d k with
  | some (some v) => some v
  | _ => none

/-- `ModularGLIDELookup._create_features_from_dict`: maps the merged field
dict onto the fixed `DisasterFeatures` schema.  Only the listed keys are
consulted; note that it reads `affected_population`, `deaths`, ...,
`economic_loss_usd` — not the regex-cascade key names. -/
def createFeaturesFromDict (featuresDict : Dict) (glide dtype : String)
    (eventDate : Rat) (season : String) (month year : Int) : DisasterFeatures :=
  { glide := glide
    disaster_type := dtype
    event_date := eventDate
    season := season
    month := month
    year := year
    location := (dictGet featuresDict "location").elim "" PyVal.asStr
    latitude := dictGet featuresDict "latitude"
    longitude := dictGet featuresDict "longitude"
    precipitation_mm := dictGet featuresDict "precipitation_mm"
    temperature_c := dictGet featuresDict "temperature_c"
    humidity_percent := dictGet featuresDict "humidity_percent"
    wind_speed_kmh := dictGet featuresDict "wind_speed_kmh"
    affected_population := dictGet featuresDict "affected_population"
    deaths := dictGet featuresDict "deaths"
    injured := dictGet featuresDict "injured"
    displaced := dictGet featuresDict "displaced"
    economic_loss_usd := dictGet featuresDict "economic_loss_usd"
    news_sentiment_score := dictGet featuresDict "sentiment_score"
    data_quality_score := (dictGet featuresDict "quality_score").getD (.float 0.5) }

/-- Lookup in the (duplicate-free) result list of `_extract_with_patterns`. -/
def patLookup (results : List (String × PyVal)) (k : String) : Option PyVal :=
  match results with
  | [] => none
  | (k', v) :: rest => if k' = k then some v else patLookup rest k

/-- Lookup in the confidence-score map. -/
def confLookup (scores : List (String × Rat)) (k : String) : Option Rat :=
  match scores with
  | [] => none
  | (k', v) :: rest => if k' = k then some v else confLookup rest k

/-- A pattern's effective contribution to a field: its match processed by
`_process_match`, `none` when it does not match or fails to process. -/
def effectivePattern (p : Matcher) (fieldName text : String) : Option PyVal :=
  match p text with
  | some m => processMatch m fieldName
  | none => none

/-- Number of non-`None`, non-bookkeeping feature attributes. -/
def countFilled (f : DisasterFeatures) : Nat :=
  ((featureEntries f).filter (fun e => !(isBookkeepingField e.1) && e.2.isSome)).length

/-- An attempt outcome that `_fetch_with_retry` treats as a failure:
a timeout, a transport error, or a response whose `raise_for_status`
raises (HTTP 4xx/5xx). -/
def fetchFails (o : FetchOutcome) : Prop :=
  o = .timeout ∨ o = .transportError ∨
    ∃ s b, o = .response s b ∧ raisesForStatus s = true

/-- An attempt outcome `_fetch_with_retry` accepts, with the given body. -/
def fetchSucceedsWith (o : FetchOutcome) (body : String) : Prop :=
  ∃ s, o = .response s body ∧ raisesForStatus s = false

/-- Test server for the fetch retry behaviour: HTTP 404 on the first
attempt, HTTP 200 on every later attempt. -/
def retryOracle404 : Nat → FetchOutcome :=
  fun n => if n = 0 then .response 404 "not found" else .response 200 "ok"

/-- Test server that always times out. -/
def retryOracleTimeout : Nat → FetchOutcome := fun _ => .timeout

/-- A concrete search result for test scenarios. -/
def testSearchItem : SearchResult :=
  { title := "Flood report", link := "https://example.org/a",
    snippet := "12,500 people affected", display_link := "example.org",
    formatted_url := "https://example.org/a" }

/-- Test oracle for `search_all_pages`: page 1 returns one item and a
paging token pointing at start index 11; every later page fails with an
`APIError`. -/
def testOracleC4 : Int → Except SearchExc SearchResponse :=
  fun s =>
    if s = 1 then
      .ok ⟨2, 0, [testSearchItem], some (some 11)⟩
    else
      .error (.apiError "API request failed with status 500" (some 500) (some ""))

/-- Test body parser: accepts exactly the body "good". -/
def testParse : String → Option SearchResponse :=
  fun b => if b = "good" then
      some { total_results := 1, search_time := 0, items := [], nextPage := none }
    else none

/-- Test pattern table for the cascade priority scenario: the `deaths`
cascade has a pattern whose match fails to process, then one capturing 7,
then one capturing 9; every other field has no pattern. -/
def testPatternsC1 : String → List Matcher :=
  fun f => if f = "deaths" then
      [fun _ => some { group0 := "abc deaths", group1 := "abc" },
       fun _ => some { group0 := "7 deaths", group1 := "7" },
       fun _ => some { group0 := "9 killed", group1 := "9" }]
    else []

/-- Test pattern table for the end-to-end scenario: the first `affected`
pattern matches "12,500 people affected" and the first `deaths` pattern
matches "3 deaths"; every other field has no pattern. -/
def testPatternsC9 : String → List Matcher :=
  fun f => if f = "affected" then
      [fun _ => some { group0 := "12,500 people affected", group1 := "12,500" }]
    else if f = "deaths" then
      [fun _ => some { group0 := "3 deaths", group1 := "3" }]
    else []

/-- Test extracted-data map for confidence scoring: an out-of-range
`deaths` (20000 > 10000) and a medium-length `description`. -/
def dataC6 : Dict :=
  [("deaths", some (.int 20000)), ("description", some (.str "a major flood event"))]

/-- The confidence scores the engine computes for `dataC6`. -/
def scoresC6 : List (String × Rat) := [("deaths", 0.3), ("description", 0.8)]

/-- Test world whose fetch always fails (all retries exhausted). -/
def testWorldFail : ExtractWorld :=
  { fetch := fun _ => none, domainExtract := fun _ _ => [],
    patterns := fun _ => [], cleanText := fun t => t,
    netloc := fun _ => "example.org", now := "2024-01-01T00:00:00" }

/-- Test world whose fetch succeeds and whose domain strategy finds
nothing; the cascade finds `deaths = 3`. -/
def testWorldOk : ExtractWorld :=
  { fetch := fun _ => some "3 deaths reported", domainExtract := fun _ _ => [],
    patterns := testPatternsC9, cleanText := fun t => t,
    netloc := fun _ => "example.org", now := "2024-01-01T00:00:00" }

/-- Test world whose domain strategy stores a string under `deaths`, so
confidence scoring raises a `TypeError` inside the try block. -/
def testWorldTypeErr : ExtractWorld :=
  { fetch := fun _ => some "html", domainExtract := fun _ _ => [("deaths", some (.str "oops"))],
    patterns := fun _ => [], cleanText := fun t => t,
    netloc := fun _ => "example.org", now := "2024-01-01T00:00:00" }

/-- A cached successful report for the cache-invariant scenarios. -/
def repC10 : ExtractionReport :=
  { url := "https://example.org/a", success := true, data := [],
    errors := [], confidence_scores := [] }

/-- A cache holding one successful report. -/
def cacheC10 : List (String × ExtractionReport) := [("https://example.org/a", repC10)]

end Glide





namespace Glide

theorem dictLookup_dictSet_self (d : Dict) (k : String) (v : Option PyVal) :
    dictLookup (dictSet d k v) k = some v := by
  induction d with
  | nil => simp [dictSet, dictLookup]
  | cons kv rest ih =>
    obtain ⟨k', v'⟩ := kv
    by_cases h : k' = k <;> simp [dictSet, dictLookup, h, ih]

theorem dictLookup_dictSet_ne (d : Dict) (k k' : String) (v : Option PyVal)
    (h : k' ≠ k) : dictLookup (dictSet d k' v) k = dictLookup d k := by
  induction d with
  | nil => simp [dictSet, dictLookup, h]
  | cons kv rest ih =>
    obtain ⟨k0, v0⟩ := kv
    by_cases h0 : k0 = k' <;> simp [dictSet, dictLookup, h0, ih]
    subst h0
    simp [h, dictLookup]

theorem mergeWebSource_preserves (sd : Dict) (merged : Dict) (k : String) (v : PyVal)
    (h : dictLookup merged k = some (some v)) :
    dictLookup (mergeWebSource merged sd) k = some (some v) := by
  induction sd generalizing merged with
  | nil => simpa [mergeWebSource] using h
  | cons kv rest ih =>
    obtain ⟨k', w⟩ := kv
    have hstep : mergeWebSource merged ((k', w) :: rest)
        = mergeWebSource (if dictLookup merged k' = none ∨ dictLookup merged k' = some none
            then dictSet merged k' w else merged) rest := by
      simp [mergeWebSource]
    rw [hstep]
    by_cases hk : k' = k
    · subst hk
      rw [if_neg (by simp [h])]
      exact ih merged h
    · by_cases hcond : dictLookup merged k' = none ∨ dictLookup merged k' = some none
      · rw [if_pos hcond]
        exact ih _ (by rwa [dictLookup_dictSet_ne _ _ _ _ hk])
      · rw [if_neg hcond]
        exact ih merged h

theorem mergeWebData_preserves (sources : List Dict) (merged : Dict) (k : String) (v : PyVal)
    (h : dictLookup merged k = some (some v)) :
    dictLookup (mergeWebData merged sources) k = some (some v) := by
  induction sources generalizing merged with
  | nil => simpa [mergeWebData] using h
  | cons sd rest ih =>
    have hstep : mergeWebData merged (sd :: rest) = mergeWebData (mergeWebSource merged sd) rest := by
      simp [mergeWebData, mergeWebSource]
    rw [hstep]
    exact ih _ (mergeWebSource_preserves sd merged k v h)

theorem mergeWebSource_fills (sd : Dict) (merged : Dict) (k : String) (v : PyVal)
    (habs : dictLookup merged k = none ∨ dictLookup merged k = some none)
    (hsd : dictLookup sd k = some (some v)) :
    dictLookup (mergeWebSource merged sd) k = some (some v) := by
  induction sd generalizing merged with
  | nil => simp [dictLookup] at hsd
  | cons kv rest ih =>
    obtain ⟨k', w⟩ := kv
    have hstep : mergeWebSource merged ((k', w) :: rest)
        = mergeWebSource (if dictLookup merged k' = none ∨ dictLookup merged k' = some none
            then dictSet merged k' w else merged) rest := by
      simp [mergeWebSource]
    rw [hstep]
    by_cases hk : k' = k
    · subst hk
      have hw : w = some v := by simpa [dictLookup] using hsd
      subst hw
      rw [if_pos habs]
      exact mergeWebSource_preserves rest _ _ v (dictLookup_dictSet_self merged _ (some v))
    · have hsd' : dictLookup rest k = some (some v) := by
        simpa [dictLookup, hk] using hsd
      by_cases hcond : dictLookup merged k' = none ∨ dictLookup merged k' = some none
      · rw [if_pos hcond]
        exact ih _ (by rwa [dictLookup_dictSet_ne _ _ _ _ hk]) hsd'
      · rw [if_neg hcond]
        exact ih merged habs hsd'

/-- C2: a value already present and non-`None` in the accumulating merged
field map (e.g. `deaths=5` from a higher-priority, earlier-ranked source)
is never overwritten by later (lower-priority) source reports; a
per-source value is copied only into keys that are absent or `None`; in
particular merging `deaths=5` then `deaths=10` leaves `deaths=5`. -/
theorem claim_C2_merge_first_writer_wins :
    (∀ (merged : Dict) (sources : List Dict) (k : String) (v : PyVal),
        dictLookup merged k = some (some v) →
        dictLookup (mergeWebData merged sources) k = some (some v))
    ∧ (∀ (merged sd : Dict) (k : String) (v : PyVal),
        (dictLookup merged k = none ∨ dictLookup merged k = some none) →
        dictLookup sd k = some (some v) →
        dictLookup (mergeWebSource merged sd) k = some (some v))
    ∧ dictLookup
        (mergeWebData [] [[("deaths", some (.int 5))], [("deaths", some (.int 10))]])
        "deaths" = some (some (.int 5)) := by
  refine ⟨?_, ?_, by decide⟩
  · exact fun merged sources k v h => mergeWebData_preserves sources merged k v h
  · exact fun merged sd k v habs hsd => mergeWebSource_fills sd merged k v habs hsd

/-- C2 witness: with `deaths=5` already merged, a later source's
`deaths=10` does not overwrite it. -/
theorem claim_C2_witness :
    dictLookup (mergeWebData [("deaths", some (.int 5))] [[("deaths", some (.int 10))]])
      "deaths" = some (some (.int 5)) :=
  claim_C2_merge_first_writer_wins.1 [("deaths", some (.int 5))]
    [[("deaths", some (.int 10))]] "deaths" (.int 5) (by decide)

end Glide

namespace Glide

theorem fetchRetryGo_all_fail (outcomes : Nat → FetchOutcome) (maxRetries : Nat) :
    ∀ fuel attempt, fuel = maxRetries - attempt → attempt < maxRetries →
    (∀ k, attempt ≤ k → k < maxRetries → fetchFails (outcomes k)) →
    fetchRetryGo outcomes maxRetries attempt fuel
      = (none, (List.range' attempt (maxRetries - 1 - attempt)).map (fun j => (2 : Rat) ^ j)) := by
  intro fuel
  induction fuel with
  | zero => intro attempt hfuel hlt _; omega
  | succ fuel ih =>
    intro attempt hfuel hlt hfail
    have hthis := hfail attempt (le_refl attempt) hlt
    by_cases hlast : attempt < maxRetries - 1
    · have hrec := ih (attempt + 1) (by omega) (by omega)
        (fun k hk1 hk2 => hfail k (by omega) hk2)
      have hn : maxRetries - 1 - attempt = (maxRetries - 1 - (attempt + 1)) + 1 := by omega
      rcases hthis with h | h | ⟨s, b, h, hs⟩
      · simp only [fetchRetryGo, h, if_pos hlast, hrec, hn, List.range'_succ]
        simp
      · simp only [fetchRetryGo, h, if_pos hlast, hrec, hn, List.range'_succ]
        simp
      · simp only [fetchRetryGo, h, hs, if_pos hlast, hrec, hn, List.range'_succ]
        simp
    · have hn : maxRetries - 1 - attempt = 0 := by omega
      rcases hthis with h | h | ⟨s, b, h, hs⟩
      · simp only [fetchRetryGo, h, if_neg hlast, hn]
        simp
      · simp only [fetchRetryGo, h, if_neg hlast, hn]
        simp
      · simp only [fetchRetryGo, h, hs, if_neg hlast, hn]
        simp

theorem fetchRetryGo_first_success (outcomes : Nat → FetchOutcome) (maxRetries : Nat) :
    ∀ fuel attempt i body, fuel = maxRetries - attempt → attempt ≤ i → i < maxRetries →
    fetchSucceedsWith (outcomes i) body →
    (∀ k, attempt ≤ k → k < i → fetchFails (outcomes k)) →
    fetchRetryGo outcomes maxRetries attempt fuel
      = (some body, (List.range' attempt (i - attempt)).map (fun j => (2 : Rat) ^ j)) := by
  intro fuel
  induction fuel with
  | zero => intro attempt i body hfuel hle hlt _ _; omega
  | succ fuel ih =>
    intro attempt i body hfuel hle hlt hsucc hfail
    by_cases heq : attempt = i
    · subst heq
      obtain ⟨s, ho, hs⟩ := hsucc
      rw [Nat.sub_self]
      simp only [fetchRetryGo, ho, hs]
      simp
    · have hai : attempt < i := by omega
      have hthis := hfail attempt (le_refl attempt) hai
      have hrec := ih (attempt + 1) i body (by omega) (by omega) hlt hsucc
        (fun k hk1 hk2 => hfail k (by omega) hk2)
      have hlast : attempt < maxRetries - 1 := by omega
      have hn : i - attempt = (i - (attempt + 1)) + 1 := by omega
      rcases hthis with h | h | ⟨s, b, h, hs⟩
      · simp only [fetchRetryGo, h, if_pos hlast, hrec, hn, List.range'_succ]
        simp
      · simp only [fetchRetryGo, h, if_pos hlast, hrec, hn, List.range'_succ]
        simp
      · simp only [fetchRetryGo, h, hs, if_pos hlast, hrec, hn, List.range'_succ]
        simp

/-- C8 counterexample: with an HTTP 404 on the first attempt and an HTTP
200 on the second, `_fetch_with_retry` (3 attempts) retries after the 404
(sleeping 2^0 = 1 second) and returns the second response's body — the
404 does not cause the fetch to fail without further attempts. -/
theorem claim_C8_counterexample :
    fetchWithRetry retryOracle404 3 = (some "ok", [1])
    ∧ (fetchWithRetry retryOracle404 3).1 ≠ none := by
  constructor <;> decide

/-- C8 (amended): the page fetcher retries every failed attempt — timeouts
and transport errors, but also any HTTP response whose status raises in
`raise_for_status` (4xx and 5xx alike) — sleeping an exponentially
doubling 2^attempt delay after each failed non-final attempt; it returns
the body of the first accepted response, and `None` once all
`max_retries` attempts fail. -/
theorem claim_C8_amended_all_failures_retried (outcomes : Nat → FetchOutcome)
    (maxRetries : Nat) :
    (∀ i body, i < maxRetries → fetchSucceedsWith (outcomes i) body →
      (∀ k, k < i → fetchFails (outcomes k)) →
      fetchWithRetry outcomes maxRetries
        = (some body, (List.range i).map (fun j => (2 : Rat) ^ j)))
    ∧ ((∀ k, k < maxRetries → fetchFails (outcomes k)) →
      fetchWithRetry outcomes maxRetries
        = (none, (List.range (maxRetries - 1)).map (fun j => (2 : Rat) ^ j))) := by
  constructor
  · intro i body hi hsucc hfail
    rw [List.range_eq_range' i]
    have h := fetchRetryGo_first_success outcomes maxRetries maxRetries 0 i body
      (by omega) (by omega) hi hsucc (fun k _ hk2 => hfail k hk2)
    simpa [fetchWithRetry] using h
  · intro hfail
    rw [List.range_eq_range' (maxRetries - 1)]
    rcases Nat.eq_zero_or_pos maxRetries with h0 | hpos
    · subst h0
      simp [fetchWithRetry, fetchRetryGo]
    · have h := fetchRetryGo_all_fail outcomes maxRetries maxRetries 0
        (by omega) (by omega) (fun k _ hk2 => hfail k hk2)
      simpa [fetchWithRetry] using h

/-- C8 amended witness: three timeouts exhaust the attempts (sleeping 1
then 2 seconds); a 404 then a 200 yield the 200's body after one retry. -/
theorem claim_C8_amended_witness :
    fetchWithRetry retryOracleTimeout 3 = (none, [1, 2])
    ∧ fetchWithRetry retryOracle404 3 = (some "ok", [1]) := by
  constructor
  · have h := (claim_C8_amended_all_failures_retried retryOracleTimeout 3).2
      (fun k _ => Or.inl rfl)
    simpa [List.range] using h
  · have h := (claim_C8_amended_all_failures_retried retryOracle404 3).1 1 "ok"
      (by omega) ⟨200, by decide, by decide⟩
      (fun k hk => Or.inr (Or.inr ⟨404, "not found", by
        interval_cases k
        · decide, by decide⟩))
    simpa [List.range] using h

end Glide

namespace Glide

/-- C5: with `Config.MAX_RETRIES = 3` retries for the force-listed
statuses 429/500/502/503/504, three consecutive 503 responses followed by
a 200 yield one successful `SearchResponse`; four consecutive 503s
exhaust the retry ceiling and raise `APIError`; a status outside the
forcelist is never retried (the transport returns it at once), and a
non-2xx such status raises `APIError` immediately, carrying the status
code and response body. -/
theorem claim_C5_retry_backoff_and_status_handling (glide : String)
    (parse : String → Option SearchResponse) (hg : glide ≠ "") :
    (∀ b resp b1 b2 b3 rest, parse b = some resp →
      searchIncident glide parse
        (⟨503, b1⟩ :: ⟨503, b2⟩ :: ⟨503, b3⟩ :: ⟨200, b⟩ :: rest) = .ok resp)
    ∧ (∀ b1 b2 b3 b4 rest,
      searchIncident glide parse
        (⟨503, b1⟩ :: ⟨503, b2⟩ :: ⟨503, b3⟩ :: ⟨503, b4⟩ :: rest)
        = .error (.apiError "Request failed: Max retries exceeded" none none))
    ∧ (∀ (r : HttpResponse) rest, r.status ∉ statusForcelist →
      sessionGetWithRetry statusForcelist configMaxRetries (r :: rest) = .ok r)
    ∧ (∀ s body rest, s ∉ statusForcelist → s < 200 ∨ 300 ≤ s →
      searchIncident glide parse (⟨s, body⟩ :: rest)
        = .error (.apiError ("API request failed with status " ++ toString s)
            (some s) (some body))) := by
  refine ⟨?_, ?_, ?_, ?_⟩
  · intro b resp b1 b2 b3 rest hparse
    simp [searchIncident, hg, sessionGetWithRetry, statusForcelist, configMaxRetries, hparse]
  · intro b1 b2 b3 b4 rest
    simp [searchIncident, hg, sessionGetWithRetry, statusForcelist, configMaxRetries]
  · intro r rest hr
    simp [sessionGetWithRetry, hr]
  · intro s body rest hs hrange
    have hs200 : s ≠ 200 := by omega
    simp [searchIncident, hg, sessionGetWithRetry, hs, hs200]

/-- C5 witness: the three scenarios at concrete inputs. -/
theorem claim_C5_witness :
    searchIncident "FL-2024-000158-BRA" testParse
      [⟨503, ""⟩, ⟨503, ""⟩, ⟨503, ""⟩, ⟨200, "good"⟩]
      = .ok ⟨1, 0, [], none⟩
    ∧ searchIncident "FL-2024-000158-BRA" testParse
        [⟨503, ""⟩, ⟨503, ""⟩, ⟨503, ""⟩, ⟨503, ""⟩]
        = .error (.apiError "Request failed: Max retries exceeded" none none)
    ∧ searchIncident "FL-2024-000158-BRA" testParse [⟨404, "nf"⟩]
        = .error (.apiError ("API request failed with status " ++ toString 404)
            (some 404) (some "nf")) := by
  have h := claim_C5_retry_backoff_and_status_handling "FL-2024-000158-BRA" testParse
    (by decide)
  exact ⟨h.1 "good" ⟨1, 0, [], none⟩ "" "" "" [] (by decide),
    h.2.1 "" "" "" "" [],
    h.2.2.2 404 "nf" [] (by decide) (by omega)⟩

theorem searchAllPagesGo_ok_bounded (oracle : Int → Except SearchExc SearchResponse)
    (maxResults : Nat) (hnv : ∀ s m, oracle s ≠ .error (.valueError m)) :
    ∀ fuel (acc : List SearchResult) (start : Int),
    ∃ l, searchAllPagesGo oracle maxResults acc start fuel = .ok l ∧ l.length ≤ maxResults := by
  intro fuel
  induction fuel with
  | zero =>
    intro acc start
    exact ⟨acc.take maxResults, rfl, by simpa [List.length_take] using Nat.min_le_left _ _⟩
  | succ fuel ih =>
    intro acc start
    by_cases hacc : acc.length < maxResults
    · cases horacle : oracle start with
      | error e =>
        cases e with
        | valueError msg => exact absurd horacle (hnv start msg)
        | apiError msg sc rb =>
          refine ⟨acc.take maxResults, ?_, by simpa [List.length_take] using Nat.min_le_left _ _⟩
          simp [searchAllPagesGo, hacc, horacle]
        | searchError msg =>
          refine ⟨acc.take maxResults, ?_, by simpa [List.length_take] using Nat.min_le_left _ _⟩
          simp [searchAllPagesGo, hacc, horacle]
      | ok resp =>
        by_cases hitems : resp.items = []
        · refine ⟨acc.take maxResults, ?_, by simpa [List.length_take] using Nat.min_le_left _ _⟩
          simp [searchAllPagesGo, hacc, horacle, hitems]
        · cases hnp : resp.nextPage with
          | none =>
            refine ⟨(acc ++ resp.items).take maxResults, ?_,
              by simpa [List.length_take] using Nat.min_le_left _ _⟩
            simp [searchAllPagesGo, hacc, horacle, hitems, hnp]
          | some si =>
            obtain ⟨l, hl, hlen⟩ := ih (acc ++ resp.items) (si.getD (start + 10))
            refine ⟨l, ?_, hlen⟩
            simp [searchAllPagesGo, hacc, horacle, hitems, hnp, hl]
    · exact ⟨acc.take maxResults, by simp [searchAllPagesGo, hacc],
        by simpa [List.length_take] using Nat.min_le_left _ _⟩

/-- C4: `search_all_pages` returns at most `max_results` results; the page
loop stops when a page has no items, when the response carries no
`nextPage` token, or when `max_results` results have been accumulated;
and a page-level `SearchError` makes it return the results collected from
the earlier pages instead of raising. -/
theorem claim_C4_search_all_pages (oracle : Int → Except SearchExc SearchResponse)
    (maxResults : Nat) (hnv : ∀ s m, oracle s ≠ .error (.valueError m)) :
    (∃ l, searchAllPages oracle maxResults = .ok l ∧ l.length ≤ maxResults)
    ∧ (∀ (acc : List SearchResult) start fuel e, oracle start = .error e →
        acc.length < maxResults →
        searchAllPagesGo oracle maxResults acc start (fuel + 1) = .ok (acc.take maxResults))
    ∧ (∀ (acc : List SearchResult) start fuel resp, oracle start = .ok resp →
        resp.items = [] → acc.length < maxResults →
        searchAllPagesGo oracle maxResults acc start (fuel + 1) = .ok (acc.take maxResults))
    ∧ (∀ (acc : List SearchResult) start fuel resp, oracle start = .ok resp →
        resp.items ≠ [] → resp.nextPage = none → acc.length < maxResults →
        searchAllPagesGo oracle maxResults acc start (fuel + 1)
          = .ok ((acc ++ resp.items).take maxResults))
    ∧ (∀ (acc : List SearchResult) start fuel, maxResults ≤ acc.length →
        searchAllPagesGo oracle maxResults acc start (fuel + 1) = .ok (acc.take maxResults)) := by
  refine ⟨searchAllPagesGo_ok_bounded oracle maxResults hnv (maxResults + 1) [] 1,
    ?_, ?_, ?_, ?_⟩
  · intro acc start fuel e horacle hacc
    cases e with
    | valueError msg => exact absurd horacle (hnv start msg)
    | apiError msg sc rb => simp [searchAllPagesGo, hacc, horacle]
    | searchError msg => simp [searchAllPagesGo, hacc, horacle]
  · intro acc start fuel resp horacle hitems hacc
    simp [searchAllPagesGo, hacc, horacle, hitems]
  · intro acc start fuel resp horacle hitems hnp hacc
    simp [searchAllPagesGo, hacc, horacle, hitems, hnp]
  · intro acc start fuel hacc
    simp [searchAllPagesGo, Nat.not_lt.mpr hacc]

/-- C4 witness: one page with one item, then a failing page — the
aggregate is the first page's single item, within the bound. -/
theorem claim_C4_witness :
    (∃ l, searchAllPages testOracleC4 5 = .ok l ∧ l.length ≤ 5)
    ∧ searchAllPagesGo testOracleC4 5 [testSearchItem] 11 4
        = .ok ([testSearchItem].take 5) := by
  have hnv : ∀ s m, testOracleC4 s ≠ .error (.valueError m) := by
    intro s m h
    by_cases hs : s = 1 <;> simp [testOracleC4, hs] at h
  have h := claim_C4_search_all_pages testOracleC4 5 hnv
  exact ⟨h.1, h.2.1 [testSearchItem] 11 3
    (.apiError "API request failed with status 500" (some 500) (some "")) rfl
    (by decide)⟩

end Glide

namespace Glide

theorem patLookup_eq_none_of_keys (l : List (String × PyVal)) (f : String)
    (h : ∀ kv ∈ l, kv.1 ≠ f) : patLookup l f = none := by
  induction l with
  | nil => rfl
  | cons kv rest ih =>
    have hk := h kv (by simp)
    simp only [patLookup, if_neg hk]
    exact ih (fun kv' hkv' => h kv' (by simp [hkv']))

theorem patLookup_append_singleton (acc : List (String × PyVal)) (f : String) (v : PyVal)
    (h : ∀ kv ∈ acc, kv.1 ≠ f) : patLookup (acc ++ [(f, v)]) f = some v := by
  induction acc with
  | nil => simp [patLookup]
  | cons kv rest ih =>
    have hk := h kv (by simp)
    simp only [List.cons_append, patLookup, if_neg hk]
    exact ih (fun kv' hkv' => h kv' (by simp [hkv']))

theorem patLookup_append (l1 l2 : List (String × PyVal)) (f : String) :
    patLookup (l1 ++ l2) f = ((patLookup l1 f).map some).getD (patLookup l2 f) := by
  induction l1 with
  | nil => simp [patLookup]
  | cons kv rest ih =>
    obtain ⟨k1, v1⟩ := kv
    by_cases hk : k1 = f <;> simp [patLookup, hk, ih]

theorem patLookup_extract_fold_skip (patterns : String → List Matcher) (text : String) :
    ∀ (fields : List String) (acc : List (String × PyVal)) (f : String), f ∉ fields →
    patLookup (List.foldl (extractStep patterns text) acc fields) f = patLookup acc f := by
  intro fields
  induction fields with
  | nil => intro acc f _; rfl
  | cons g rest ih =>
    intro acc f hf
    have hgf : g ≠ f := fun h => hf (by simp [h])
    have hrest : f ∉ rest := fun h => hf (by simp [h])
    rw [List.foldl_cons, ih _ f hrest]
    cases hfv : firstValidPattern (patterns g) g text with
    | none => simp [extractStep, hfv]
    | some v =>
      simp only [extractStep, hfv]
      rw [patLookup_append]
      cases hpl : patLookup acc f with
      | some w => simp
      | none => simp [patLookup, hgf]

theorem patLookup_extract_fold (patterns : String → List Matcher) (text : String) :
    ∀ (fields : List String) (acc : List (String × PyVal)) (f : String),
    f ∈ fields → fields.Nodup → (∀ kv ∈ acc, kv.1 ≠ f) →
    patLookup (List.foldl (extractStep patterns text) acc fields) f
      = firstValidPattern (patterns f) f text := by
  intro fields
  induction fields with
  | nil => intro acc f hf; simp at hf
  | cons g rest ih =>
    intro acc f hf hnd hacc
    have hnd' := List.nodup_cons.mp hnd
    rw [List.foldl_cons]
    by_cases hgf : g = f
    · subst hgf
      have hrest : g ∉ rest := hnd'.1
      rw [patLookup_extract_fold_skip patterns text rest _ g hrest]
      cases hfv : firstValidPattern (patterns g) g text with
      | none => simp [extractStep, hfv, patLookup_eq_none_of_keys _ g hacc]
      | some v => simp [extractStep, hfv, patLookup_append_singleton _ g v hacc]
    · have hfrest : f ∈ rest := by
        cases List.mem_cons.mp hf with
        | inl h => exact absurd h.symm hgf
        | inr h => exact h
      refine ih _ f hfrest hnd'.2 ?_
      intro kv hkv
      cases hfv : firstValidPattern (patterns g) g text with
      | none =>
        simp only [extractStep, hfv] at hkv
        exact hacc kv hkv
      | some v =>
        simp only [extractStep, hfv] at hkv
        rcases List.mem_append.mp hkv with h | h
        · exact hacc kv h
        · have hkvgv : kv = (g, v) := by simpa using h
          rw [hkvgv]
          exact hgf

theorem mergePatternData_preserves (pd : List (String × PyVal)) (data : Dict)
    (k : String) (v : PyVal) (h : dictLookup data k = some (some v)) :
    dictLookup (mergePatternData data pd) k = some (some v) := by
  induction pd generalizing data with
  | nil => simpa [mergePatternData] using h
  | cons kv rest ih =>
    obtain ⟨k', w⟩ := kv
    have hstep : mergePatternData data ((k', w) :: rest)
        = mergePatternData (if dictLookup data k' = none ∨ dictLookup data k' = some none
            then dictSet data k' (some w) else data) rest := by
      simp [mergePatternData]
    rw [hstep]
    by_cases hk : k' = k
    · subst hk
      rw [if_neg (by simp [h])]
      exact ih data h
    · by_cases hcond : dictLookup data k' = none ∨ dictLookup data k' = some none
      · rw [if_pos hcond]
        exact ih _ (by rwa [dictLookup_dictSet_ne _ _ _ _ hk])
      · rw [if_neg hcond]
        exact ih data h

theorem mergePatternData_fills (pd : List (String × PyVal)) (data : Dict)
    (k : String) (v : PyVal)
    (habs : dictLookup data k = none ∨ dictLookup data k = some none)
    (hpd : patLookup pd k = some v) :
    dictLookup (mergePatternData data pd) k = some (some v) := by
  induction pd generalizing data with
  | nil => simp [patLookup] at hpd
  | cons kv rest ih =>
    obtain ⟨k', w⟩ := kv
    have hstep : mergePatternData data ((k', w) :: rest)
        = mergePatternData (if dictLookup data k' = none ∨ dictLookup data k' = some none
            then dictSet data k' (some w) else data) rest := by
      simp [mergePatternData]
    rw [hstep]
    by_cases hk : k' = k
    · subst hk
      have hw : w = v := by simpa [patLookup] using hpd
      subst hw
      rw [if_pos habs]
      exact mergePatternData_preserves rest _ _ _ (dictLookup_dictSet_self data _ (some w))
    · have hpd' : patLookup rest k = some v := by simpa [patLookup, hk] using hpd
      by_cases hcond : dictLookup data k' = none ∨ dictLookup data k' = some none
      · rw [if_pos hcond]
        exact ih _ (by rwa [dictLookup_dictSet_ne _ _ _ _ hk]) hpd'
      · rw [if_neg hcond]
        exact ih data habs hpd'

/-- C1: (i) in the extracted pattern map each target field holds exactly
the result of its own pattern cascade; (ii) the cascade yields the value
of the first pattern in priority order whose match processes to a valid
value, with no constraint on where or whether later patterns match;
(iii)/(iv) a cascade value is written into the report data only for a key
that is absent or `None` after the domain strategy ran — present non-null
values are never overwritten, absent/null ones are filled. -/
theorem claim_C1_cascade_priority (patterns : String → List Matcher) (text : String) :
    (∀ f, f ∈ patternFields →
      patLookup (extractWithPatterns patterns text) f = firstValidPattern (patterns f) f text)
    ∧ (∀ (pats : List Matcher) (f : String) (i : Nat) (p : Matcher) (v : PyVal),
        pats.get? i = some p →
        effectivePattern p f text = some v →
        (∀ j q, j < i → pats.get? j = some q → effectivePattern q f text = none) →
        firstValidPattern pats f text = some v)
    ∧ (∀ (data : Dict) (pd : List (String × PyVal)) (k : String) (v0 : PyVal),
        dictLookup data k = some (some v0) →
        dictLookup (mergePatternData data pd) k = some (some v0))
    ∧ (∀ (data : Dict) (pd : List (String × PyVal)) (k : String) (v : PyVal),
        (dictLookup data k = none ∨ dictLookup data k = some none) →
        patLookup pd k = some v →
        dictLookup (mergePatternData data pd) k = some (some v)) := by
  refine ⟨?_, ?_, ?_, ?_⟩
  · intro f hf
    exact patLookup_extract_fold patterns text patternFields [] f hf (by decide)
      (by intro kv hkv; simp at hkv)
  · intro pats
    induction pats with
    | nil => intro f i p v hget _ _; simp at hget
    | cons p0 rest ih =>
      intro f i p v hget heff hbefore
      cases i with
      | zero =>
        have hp : p0 = p := by simpa using hget
        subst hp
        unfold effectivePattern at heff
        cases hm : p0 text with
        | none => rw [hm] at heff; exact absurd heff (by simp)
        | some m =>
          rw [hm] at heff
          have heffm : processMatch m f = some v := heff
          simp [firstValidPattern, hm, heffm]
      | succ i' =>
        have h0 : effectivePattern p0 f text = none :=
          hbefore 0 p0 (Nat.succ_pos i') rfl
        unfold effectivePattern at h0
        have hrec := ih f i' p v (by simpa using hget)
          heff (fun j q hj hq => hbefore (j + 1) q (by omega) (by simpa using hq))
        cases hm : p0 text with
        | none => simp [firstValidPattern, hm, hrec]
        | some m =>
          rw [hm] at h0
          have h0m : processMatch m f = none := h0
          simp [firstValidPattern, hm, h0m, hrec]
  · exact fun data pd k v0 h => mergePatternData_preserves pd data k v0 h
  · exact fun data pd k v habs hpd => mergePatternData_fills pd data k v habs hpd

/-- C1 witness: in a `deaths` cascade whose first pattern match fails to
process, whose second captures 7 and whose third captures 9, the
extracted value is 7; and a pre-existing non-null `deaths` is not
overwritten by the cascade. -/
theorem claim_C1_witness :
    patLookup (extractWithPatterns testPatternsC1 "7 deaths, 9 killed") "deaths"
      = some (.int 7)
    ∧ dictLookup
        (mergePatternData [("deaths", some (.int 1))] [("deaths", .int 7)]) "deaths"
      = some (some (.int 1)) := by
  have h := claim_C1_cascade_priority testPatternsC1 "7 deaths, 9 killed"
  constructor
  · refine (h.1 "deaths" (by decide)).trans ?_
    exact h.2.1 (testPatternsC1 "deaths") "deaths" 1
      (fun _ => some { group0 := "7 deaths", group1 := "7" }) (.int 7)
      rfl rfl
      (by
        intro j q hj hq
        interval_cases j
        have hq1 : (fun _ : String => some ({ group0 := "abc deaths", group1 := "abc" } : MatchData)) = q :=
          Option.some.inj hq
        rw [← hq1]
        rfl)
  · exact h.2.2.1 [("deaths", some (.int 1))] [("deaths", .int 7)] "deaths" (.int 1)
      (by decide)

end Glide

namespace Glide

theorem completenessFold (l : List (String × Option PyVal)) :
    ∀ a b : Nat,
    l.foldl (fun acc e => if isBookkeepingField e.1 then acc
        else (acc.1 + 1, if e.2.isSome then acc.2 + 1 else acc.2)) (a, b)
      = (a + (l.filter (fun e => !(isBookkeepingField e.1))).length,
         b + (l.filter (fun e => !(isBookkeepingField e.1) && e.2.isSome)).length) := by
  induction l with
  | nil => intro a b; simp
  | cons e rest ih =>
    intro a b
    by_cases hbk : isBookkeepingField e.1
    · simp [List.foldl_cons, List.filter_cons, hbk, ih a b]
    · by_cases hsome : e.2.isSome
      · simp only [Bool.not_eq_true] at hbk
        simp [List.foldl_cons, List.filter_cons, hbk, hsome, ih, Prod.ext_iff] <;> omega
      · simp only [Bool.not_eq_true] at hbk hsome
        simp [List.foldl_cons, List.filter_cons, hbk, hsome, ih, Prod.ext_iff] <;> omega

theorem prepareFold (disasters : List EnhancedDisasterInfo)
    (acc : List (List (String × Option PyVal))) :
    disasters.foldl (fun matrix d =>
        match d.features with
        | some f => if d.data_completeness > 0.6 then matrix ++ [featureEntries f] else matrix
        | none => matrix) acc
      = acc ++ disasters.filterMap (fun d =>
          match d.features with
          | some f => if d.data_completeness > 0.6 then some (featureEntries f) else none
          | none => none) := by
  induction disasters generalizing acc with
  | nil => simp
  | cons d rest ih =>
    rw [List.foldl_cons, List.filterMap_cons]
    cases hfeat : d.features with
    | none => simp only [hfeat]; rw [ih]
    | some f =>
      by_cases hc : d.data_completeness > 0.6
      · simp only [hfeat, if_pos hc]
        rw [ih]
        simp
      · simp only [hfeat, if_neg hc]
        rw [ih]

/-- C3: `calculate_completeness` equals the number of non-`None` feature
attributes divided by the total attribute count, both excluding the two
bookkeeping attributes (`extraction_timestamp`, `data_quality_score`),
with that total equal to 44; `prepare_for_training` adds an event's
features to the matrix iff features exist and the cached completeness is
strictly greater than 0.6, so exactly 0.6 is excluded and 0.61 included. -/
theorem claim_C3_completeness_and_training_threshold :
    (∀ f : DisasterFeatures,
      calculateCompleteness (some f) = (countFilled f : Rat) / 44
      ∧ ((featureEntries f).filter (fun e => !(isBookkeepingField e.1))).length = 44)
    ∧ (∀ disasters : List EnhancedDisasterInfo,
      prepareForTraining disasters = disasters.filterMap (fun d =>
        match d.features with
        | some f => if d.data_completeness > 0.6 then some (featureEntries f) else none
        | none => none))
    ∧ (∀ f : DisasterFeatures,
      prepareForTraining [{ features := some f, data_completeness := 0.6 }] = []
      ∧ prepareForTraining [{ features := some f, data_completeness := 0.61 }]
          = [featureEntries f]) := by
  have htot : ∀ f : DisasterFeatures,
      ((featureEntries f).filter (fun e => !(isBookkeepingField e.1))).length = 44 :=
    fun f => rfl
  refine ⟨fun f => ⟨?_, htot f⟩, ?_, ?_⟩
  · show (let counts : Nat × Nat :=
        (featureEntries f).foldl (fun acc e =>
          if isBookkeepingField e.1 then acc
          else (acc.1 + 1, if e.2.isSome then acc.2 + 1 else acc.2)) (0, 0);
      if counts.1 > 0 then (counts.2 : Rat) / (counts.1 : Rat) else 0)
      = (countFilled f : Rat) / 44
    rw [completenessFold (featureEntries f) 0 0]
    simp only [Nat.zero_add, htot f, countFilled]
    norm_num
  · intro disasters
    exact prepareFold disasters []
  · intro f
    constructor
    · have h := prepareFold [{ features := some f, data_completeness := (0.6 : Rat) }] []
      rw [show prepareForTraining [{ features := some f, data_completeness := (0.6 : Rat) }]
          = _ from h]
      norm_num [List.filterMap_cons]
    · have h := prepareFold [{ features := some f, data_completeness := (0.61 : Rat) }] []
      rw [show prepareForTraining [{ features := some f, data_completeness := (0.61 : Rat) }]
          = _ from h]
      norm_num [List.filterMap_cons]

end Glide

namespace Glide

theorem confNumeric_ok_keys (data : Dict) :
    ∀ (valids : List (String × Rat × Rat)) (ns : List (String × Rat)),
    confNumeric valids data = .ok ns → ∀ kv ∈ ns, kv.1 ∈ valids.map (fun x => x.1) := by
  intro valids
  induction valids with
  | nil =>
    intro ns h kv hkv
    simp only [confNumeric] at h
    cases h
    simp at hkv
  | cons t rest ih =>
    obtain ⟨g, mng, mxg⟩ := t
    intro ns h kv hkv
    cases hl : dictLookup data g with
    | none =>
      simp only [confNumeric, hl] at h
      exact List.mem_cons_of_mem _ (ih ns h kv hkv)
    | some o =>
      cases o with
      | none =>
        simp only [confNumeric, hl] at h
        exact List.mem_cons_of_mem _ (ih ns h kv hkv)
      | some v =>
        cases hq : v.toRat? with
        | none =>
          simp only [confNumeric, hl, hq] at h
          simp at h
        | some q =>
          cases hrec : confNumeric rest data with
          | error e =>
            simp only [confNumeric, hl, hq, hrec] at h
            simp at h
          | ok tail =>
            simp only [confNumeric, hl, hq, hrec] at h
            cases h
            rcases List.mem_cons.mp hkv with hkv1 | hkv1
            · rw [hkv1]; simp
            · exact List.mem_cons_of_mem _ (ih tail hrec kv hkv1)

theorem confNumeric_ok_lookup (data : Dict) :
    ∀ (valids : List (String × Rat × Rat)) (ns : List (String × Rat))
      (f : String) (mn mx : Rat) (v : PyVal) (q : Rat),
    confNumeric valids data = .ok ns →
    (valids.map (fun x => x.1)).Nodup →
    (f, mn, mx) ∈ valids →
    dictLookup data f = some (some v) → v.toRat? = some q →
    confLookup ns f
      = some (if mn ≤ q ∧ q ≤ mx then if mn < q ∧ q < mx then 0.8 else 0.6 else 0.3) := by
  intro valids
  induction valids with
  | nil => intro ns f mn mx v q _ _ hmem; simp at hmem
  | cons t rest ih =>
    obtain ⟨g, mng, mxg⟩ := t
    intro ns f mn mx v q h hnd hmem hl hq
    rw [List.map_cons] at hnd
    have hnd' := List.nodup_cons.mp hnd
    rcases List.mem_cons.mp hmem with heq | hmem'
    · injection heq with hg htl
      injection htl with hmn hmx
      subst hg
      subst hmn
      subst hmx
      cases hrec : confNumeric rest data with
      | error e =>
        simp only [confNumeric, hl, hq, hrec] at h
        simp at h
      | ok tail =>
        simp only [confNumeric, hl, hq, hrec] at h
        cases h
        simp [confLookup]
    · have hgf : g ≠ f := by
        intro hgff
        apply hnd'.1
        rw [hgff]
        exact List.mem_map.mpr ⟨(f, mn, mx), hmem', rfl⟩
      cases hlg : dictLookup data g with
      | none =>
        simp only [confNumeric, hlg] at h
        exact ih ns f mn mx v q h hnd'.2 hmem' hl hq
      | some o =>
        cases o with
        | none =>
          simp only [confNumeric, hlg] at h
          exact ih ns f mn mx v q h hnd'.2 hmem' hl hq
        | some vg =>
          cases hqg : vg.toRat? with
          | none =>
            simp only [confNumeric, hlg, hqg] at h
            simp at h
          | some qg =>
            cases hrec : confNumeric rest data with
            | error e =>
              simp only [confNumeric, hlg, hqg, hrec] at h
              simp at h
            | ok tail =>
              simp only [confNumeric, hlg, hqg, hrec] at h
              cases h
              simp only [confLookup, if_neg hgf]
              exact ih tail f mn mx v q hrec hnd'.2 hmem' hl hq

theorem confLookup_append_left (ns ts : List (String × Rat)) (f : String) (r : Rat)
    (h : confLookup ns f = some r) : confLookup (ns ++ ts) f = some r := by
  induction ns with
  | nil => simp [confLookup] at h
  | cons kv rest ih =>
    obtain ⟨k1, r1⟩ := kv
    by_cases hk : k1 = f
    · simpa [confLookup, hk] using h
    · simp only [confLookup, if_neg hk] at h
      simpa [confLookup, hk] using ih h

theorem confLookup_append_right (ns ts : List (String × Rat)) (f : String)
    (h : ∀ kv ∈ ns, kv.1 ≠ f) : confLookup (ns ++ ts) f = confLookup ts f := by
  induction ns with
  | nil => rfl
  | cons kv rest ih =>
    have hk := h kv (by simp)
    simp only [List.cons_append, confLookup, if_neg hk]
    exact ih (fun kv' hkv' => h kv' (by simp [hkv']))

theorem confText_lookup (data : Dict) :
    ∀ (fields : List String) (f : String) (v : PyVal),
    fields.Nodup → f ∈ fields →
    dictLookup data f = some (some v) → v.truthy = true →
    confLookup (confText fields data) f
      = some (if 10 ≤ v.strLen ∧ v.strLen ≤ 1000 then 0.8 else 0.5) := by
  intro fields
  induction fields with
  | nil => intro f v _ hf; simp at hf
  | cons g rest ih =>
    intro f v hnd hf hl htr
    have hnd' := List.nodup_cons.mp hnd
    rcases List.mem_cons.mp hf with rfl | hf'
    · simp only [confText, List.filterMap_cons, hl, htr, if_pos rfl]
      simp [confLookup]
    · have hgf : g ≠ f := fun hgff => hnd'.1 (hgff ▸ hf')
      have htail : confLookup (confText rest data) f
          = some (if 10 ≤ v.strLen ∧ v.strLen ≤ 1000 then 0.8 else 0.5) :=
        ih f v hnd'.2 hf' hl htr
      simp only [confText, List.filterMap_cons]
      cases hlg : dictLookup data g with
      | none => exact htail
      | some o =>
        cases o with
        | none => exact htail
        | some vg =>
          by_cases htrg : vg.truthy
          · simp only [htrg, if_pos rfl]
            simpa [confLookup, hgf] using htail
          · simp only [htrg]
            simpa using htail

theorem validateAndClean_keeps :
    ∀ (data : Dict) (k : String) (v w : PyVal),
    dictLookup data k = some (some v) → cleanValue k v = some w →
    dictLookup (validateAndCleanData data) k = some (some w) := by
  intro data
  induction data with
  | nil => intro k v w h _; simp [dictLookup] at h
  | cons kv rest ih =>
    obtain ⟨k0, x⟩ := kv
    intro k v w hl hc
    by_cases hk : k0 = k
    · subst hk
      have hx : x = some v := by simpa [dictLookup] using hl
      subst hx
      have hfold : validateAndCleanData ((k0, some v) :: rest)
          = (k0, some w) :: validateAndCleanData rest := by
        simp [validateAndCleanData, hc]
      rw [hfold]
      simp [dictLookup]
    · have hl' : dictLookup rest k = some (some v) := by simpa [dictLookup, hk] using hl
      cases x with
      | none =>
        have hfold : validateAndCleanData ((k0, none) :: rest) = validateAndCleanData rest := by
          simp [validateAndCleanData]
        rw [hfold]
        exact ih k v w hl' hc
      | some u =>
        cases hcu : cleanValue k0 u with
        | none =>
          have hfold : validateAndCleanData ((k0, some u) :: rest)
              = validateAndCleanData rest := by
            simp [validateAndCleanData, hcu]
          rw [hfold]
          exact ih k v w hl' hc
        | some w0 =>
          have hfold : validateAndCleanData ((k0, some u) :: rest)
              = (k0, some w0) :: validateAndCleanData rest := by
            simp [validateAndCleanData, hcu]
          rw [hfold]
          simpa [dictLookup, hk] using ih k v w hl' hc

theorem cleanValue_numeric_keeps (k : String) (v : PyVal) (q : Rat)
    (hq : v.toRat? = some q) (hnn : 0 ≤ q) : ∃ w, cleanValue k v = some w := by
  cases v with
  | int n =>
    have hn : (n : Rat) = q := by simpa [PyVal.toRat?] using hq
    have hnpos : ¬ n < 0 := by
      intro hneg
      have : (n : Rat) < 0 := by exact_mod_cast hneg
      rw [hn] at this
      exact absurd hnn (not_le.mpr this)
    exact ⟨.int n, by simp [cleanValue, hnpos]⟩
  | float x =>
    have hx : x = q := by simpa [PyVal.toRat?] using hq
    subst hx
    have hxpos : ¬ x < 0 := not_lt.mpr hnn
    refine ⟨.float (if k = "latitude" ∨ k = "longitude" then x else round2 x), ?_⟩
    simp [cleanValue, hxpos]
  | str s => simp [PyVal.toRat?] at hq
  | bool b => simp [PyVal.toRat?] at hq
  | list l => simp [PyVal.toRat?] at hq

theorem parseIntDigits_nonneg (s : String) (n : Int) (h : parseIntDigits s = some n) :
    0 ≤ n := by
  unfold parseIntDigits at h
  split at h
  · cases h
    exact Int.ofNat_nonneg _
  · cases h

theorem parseFloatDigits_nonneg (s : String) (q : Rat) (h : parseFloatDigits s = some q) :
    0 ≤ q := by
  unfold parseFloatDigits at h
  split at h
  · split at h
    · cases h
      positivity
    · cases h
  · split at h
    · cases h
    · split at h
      · cases h
        positivity
      · cases h
  · cases h

theorem processMatch_nonneg (m : MatchData) (fname : String) (v : PyVal)
    (h : processMatch m fname = some v) : ∃ q, v.toRat? = some q ∧ 0 ≤ q := by
  unfold processMatch at h
  split at h
  · obtain ⟨n, hn, hv⟩ := Option.map_eq_some'.mp h
    exact ⟨(n : Rat), by simp [← hv, PyVal.toRat?],
      by exact_mod_cast parseIntDigits_nonneg _ n hn⟩
  · split at h
    · obtain ⟨x, hx, hv⟩ := Option.map_eq_some'.mp h
      exact ⟨x, by simp [← hv, PyVal.toRat?], parseFloatDigits_nonneg _ x hx⟩
    · split at h
      · obtain ⟨x, hx, hv⟩ := Option.map_eq_some'.mp h
        have hx0 := parseFloatDigits_nonneg _ x hx
        subst hv
        refine ⟨_, rfl, ?_⟩
        split
        · exact mul_nonneg hx0 (by norm_num)
        · split
          · exact mul_nonneg hx0 (by norm_num)
          · exact hx0
      · cases h

end Glide

namespace Glide

/-- C6: for every data map whose confidence scoring succeeds, each numeric
field of the plausible-range table receives 0.8 strictly inside its
range, 0.6 on a boundary and 0.3 outside; a scored value that is
non-negative (as every cascade-extracted value is — third conjunct)
survives validation/cleanup, so an out-of-range value is kept with only
its confidence lowered; each text field (`location_details`,
`description`, `summary`) receives 0.8 when its length lies in [10, 1000]
and 0.5 otherwise. -/
theorem claim_C6_confidence_scoring (data : Dict) (scores : List (String × Rat))
    (hok : calculateConfidenceScores data = .ok scores) :
    (∀ (f : String) (mn mx : Rat) (v : PyVal) (q : Rat),
      (f, mn, mx) ∈ numericValidations →
      dictLookup data f = some (some v) → v.toRat? = some q →
      (confLookup scores f
        = some (if mn ≤ q ∧ q ≤ mx then if mn < q ∧ q < mx then 0.8 else 0.6 else 0.3)
      ∧ (0 ≤ q → ∃ w, dictLookup (validateAndCleanData data) f = some (some w))))
    ∧ (∀ (f : String) (v : PyVal), f ∈ textConfidenceFields →
      dictLookup data f = some (some v) → v.truthy = true →
      confLookup scores f = some (if 10 ≤ v.strLen ∧ v.strLen ≤ 1000 then 0.8 else 0.5))
    ∧ (∀ (m : MatchData) (fname : String) (v : PyVal), processMatch m fname = some v →
      ∃ q, v.toRat? = some q ∧ 0 ≤ q) := by
  unfold calculateConfidenceScores at hok
  cases hns : confNumeric numericValidations data with
  | error e => rw [hns] at hok; simp at hok
  | ok ns =>
    rw [hns] at hok
    cases hok
    refine ⟨?_, ?_, fun m fname v h => processMatch_nonneg m fname v h⟩
    · intro f mn mx v q hmem hl hq
      constructor
      · exact confLookup_append_left _ _ f _
          (confNumeric_ok_lookup data numericValidations ns f mn mx v q hns
            (by decide) hmem hl hq)
      · intro hnn
        obtain ⟨w, hw⟩ := cleanValue_numeric_keeps f v q hq hnn
        exact ⟨w, validateAndClean_keeps data f v w hl hw⟩
    · intro f v htf hl htr
      have hkeys := confNumeric_ok_keys data numericValidations ns hns
      have hfn : f ∉ numericValidations.map (fun x => x.1) := by
        have htf' : f = "location_details" ∨ f = "description" ∨ f = "summary" := by
          simpa [textConfidenceFields] using htf
        rcases htf' with rfl | rfl | rfl <;> decide
      have hskip : ∀ kv ∈ ns, kv.1 ≠ f := by
        intro kv hkv he
        exact hfn (he ▸ hkeys kv hkv)
      rw [confLookup_append_right ns _ f hskip]
      exact confText_lookup data textConfidenceFields f v (by decide) htf hl htr

/-- C6 witness: `deaths = 20000` (above the 10000 bound) scores 0.3 and is
still present after cleanup; the 19-character `description` scores 0.8. -/
theorem claim_C6_witness :
    calculateConfidenceScores dataC6 = .ok scoresC6
    ∧ confLookup scoresC6 "deaths" = some 0.3
    ∧ (∃ w, dictLookup (validateAndCleanData dataC6) "deaths" = some (some w))
    ∧ confLookup scoresC6 "description" = some 0.8 := by
  have hok : calculateConfidenceScores dataC6 = .ok scoresC6 := rfl
  have h := claim_C6_confidence_scoring dataC6 scoresC6 hok
  have hnum := h.1 "deaths" 0 10000 (.int 20000) 20000 (by decide) (by decide) (by decide)
  have htext := h.2.1 "description" (.str "a major flood event") (by decide) (by decide)
    (by decide)
  refine ⟨hok, ?_, hnum.2 (by norm_num), ?_⟩
  · rw [hnum.1]
    norm_num
  · rw [htext, if_pos (by decide : 10 ≤ (PyVal.str "a major flood event").strLen
      ∧ (PyVal.str "a major flood event").strLen ≤ 1000)]

end Glide

namespace Glide

theorem extractFromUrl_cacheHit (w : ExtractWorld) (cache : List (String × ExtractionReport))
    (url : String) (rep : ExtractionReport) (h : cacheLookup cache url = some rep) :
    extractFromUrl w cache url false = (rep, cache) := by
  simp only [extractFromUrl, h]

theorem extractFromUrl_fetchFail (w : ExtractWorld) (cache : List (String × ExtractionReport))
    (url : String) (fr : Bool)
    (hguard : fr = true ∨ cacheLookup cache url = none)
    (hfetch : w.fetch url = none) :
    extractFromUrl w cache url fr
      = ({ url := url, success := false, data := [],
           errors := ["Falha ao buscar conteudo da URL"], confidence_scores := [] },
         cache) := by
  rcases hguard with hfr | hcl
  · subst hfr
    simp only [extractFromUrl, hfetch]
  · cases fr with
    | true => simp only [extractFromUrl, hfetch]
    | false => simp only [extractFromUrl, hcl, hfetch]

theorem extractFromUrl_confError (w : ExtractWorld) (cache : List (String × ExtractionReport))
    (url : String) (fr : Bool) (html e : String)
    (hguard : fr = true ∨ cacheLookup cache url = none)
    (hfetch : w.fetch url = some html)
    (hconf : calculateConfidenceScores
        (mergePatternData (w.domainExtract (w.netloc url) html)
          (extractWithPatterns w.patterns (w.cleanText html))) = .error e) :
    extractFromUrl w cache url fr
      = ({ url := url, success := false,
           data := mergePatternData (w.domainExtract (w.netloc url) html)
             (extractWithPatterns w.patterns (w.cleanText html)),
           errors := ["Erro de extracao: " ++ e], confidence_scores := [] },
         cache) := by
  rcases hguard with hfr | hcl
  · subst hfr
    simp only [extractFromUrl, hfetch, hconf]
  · cases fr with
    | true => simp only [extractFromUrl, hfetch, hconf]
    | false => simp only [extractFromUrl, hcl, hfetch, hconf]

theorem extractFromUrl_success (w : ExtractWorld) (cache : List (String × ExtractionReport))
    (url : String) (fr : Bool) (html : String) (scores : List (String × Rat))
    (hguard : fr = true ∨ cacheLookup cache url = none)
    (hfetch : w.fetch url = some html)
    (hconf : calculateConfidenceScores
        (mergePatternData (w.domainExtract (w.netloc url) html)
          (extractWithPatterns w.patterns (w.cleanText html))) = .ok scores) :
    extractFromUrl w cache url fr
      = ({ url := url, success := true,
           data := addMetadata (validateAndCleanData
               (mergePatternData (w.domainExtract (w.netloc url) html)
                 (extractWithPatterns w.patterns (w.cleanText html))))
             url w.now (w.netloc url),
           errors := [], confidence_scores := scores },
         cacheSet cache url
           { url := url, success := true,
             data := addMetadata (validateAndCleanData
                 (mergePatternData (w.domainExtract (w.netloc url) html)
                   (extractWithPatterns w.patterns (w.cleanText html))))
               url w.now (w.netloc url),
             errors := [], confidence_scores := scores }) := by
  rcases hguard with hfr | hcl
  · subst hfr
    simp only [extractFromUrl, hfetch, hconf]
  · cases fr with
    | true => simp only [extractFromUrl, hfetch, hconf]
    | false => simp only [extractFromUrl, hcl, hfetch, hconf]

theorem cacheSet_mem (url : String) (r : ExtractionReport) :
    ∀ (cache : List (String × ExtractionReport)) (p : String × ExtractionReport),
    p ∈ cacheSet cache url r → p.2 = r ∨ p ∈ cache := by
  intro cache
  induction cache with
  | nil =>
    intro p hp
    simp [cacheSet] at hp
    left
    rw [hp]
  | cons kv rest ih =>
    obtain ⟨u, r0⟩ := kv
    intro p hp
    by_cases hu : u = url
    · simp only [cacheSet, if_pos hu] at hp
      rcases List.mem_cons.mp hp with h | h
      · left; rw [h]
      · right; exact List.mem_cons_of_mem _ h
    · simp only [cacheSet, if_neg hu] at hp
      rcases List.mem_cons.mp hp with h | h
      · right; rw [h]; simp
      · rcases ih p h with h1 | h1
        · left; exact h1
        · right; exact List.mem_cons_of_mem _ h1

theorem cacheLookup_cacheSet_self (url : String) (r : ExtractionReport) :
    ∀ cache : List (String × ExtractionReport),
    cacheLookup (cacheSet cache url r) url = some r := by
  intro cache
  induction cache with
  | nil => simp [cacheSet, cacheLookup]
  | cons kv rest ih =>
    obtain ⟨u, r0⟩ := kv
    by_cases hu : u = url
    · simp [cacheSet, cacheLookup, hu]
    · simp [cacheSet, cacheLookup, hu, ih]

/-- C7: `extract_from_url` never propagates a failure to its caller: when
the fetch fails after all retries it returns a `success = false` report
carrying the descriptive warning, with the cache untouched; when the try
block raises internally (e.g. a `TypeError` during confidence scoring) the
returned report records the exception in its error list instead of
propagating, again without caching; and a field whose patterns all fail
to parse is simply left unset — each field of the cascade result is
governed solely by its own pattern list, so no per-field failure affects
the rest of the page. -/
theorem claim_C7_extract_error_containment (w : ExtractWorld)
    (cache : List (String × ExtractionReport)) (url : String) (fr : Bool) :
    ((fr = true ∨ cacheLookup cache url = none) → w.fetch url = none →
      extractFromUrl w cache url fr
        = ({ url := url, success := false, data := [],
             errors := ["Falha ao buscar conteudo da URL"], confidence_scores := [] },
           cache))
    ∧ (∀ html e, (fr = true ∨ cacheLookup cache url = none) →
        w.fetch url = some html →
        calculateConfidenceScores
          (mergePatternData (w.domainExtract (w.netloc url) html)
            (extractWithPatterns w.patterns (w.cleanText html))) = .error e →
        ((extractFromUrl w cache url fr).1.success = false
         ∧ ("Erro de extracao: " ++ e) ∈ (extractFromUrl w cache url fr).1.errors
         ∧ (extractFromUrl w cache url fr).2 = cache))
    ∧ (∀ (patterns : String → List Matcher) (text f : String), f ∈ patternFields →
        patLookup (extractWithPatterns patterns text) f
          = firstValidPattern (patterns f) f text) := by
  refine ⟨?_, ?_, ?_⟩
  · exact fun hguard hfetch => extractFromUrl_fetchFail w cache url fr hguard hfetch
  · intro html e hguard hfetch hconf
    rw [extractFromUrl_confError w cache url fr html e hguard hfetch hconf]
    simp
  · intro patterns text f hf
    exact patLookup_extract_fold patterns text patternFields [] f hf (by decide)
      (by intro kv hkv; simp at hkv)

/-- C7 witness: a failing fetch yields the warning report; a `TypeError`
inside the try block is recorded in the report's errors; the cascade
lookup equation at a concrete field. -/
theorem claim_C7_witness :
    extractFromUrl testWorldFail [] "https://example.org/a" false
      = ({ url := "https://example.org/a", success := false, data := [],
           errors := ["Falha ao buscar conteudo da URL"], confidence_scores := [] }, [])
    ∧ (extractFromUrl testWorldTypeErr [] "https://example.org/a" false).1.success = false
    ∧ ("Erro de extracao: TypeError: comparison not supported"
        ∈ (extractFromUrl testWorldTypeErr [] "https://example.org/a" false).1.errors)
    ∧ patLookup (extractWithPatterns testPatternsC1 "x") "water_level"
        = firstValidPattern (testPatternsC1 "water_level") "water_level" "x" := by
  have h1 := claim_C7_extract_error_containment testWorldFail [] "https://example.org/a" false
  have h2 := claim_C7_extract_error_containment testWorldTypeErr [] "https://example.org/a" false
  have he := h2.2.1 "html" "TypeError: comparison not supported" (Or.inr rfl) rfl rfl
  exact ⟨h1.1 (Or.inr rfl) rfl, he.1, he.2.1,
    h1.2.2 testPatternsC1 "x" "water_level" (by decide)⟩

/-- C10: cache invariant of the extraction engine — every cached report
has `success = true`: an extraction that returns `success = false` leaves
the cache unchanged (so a later call re-attempts the fetch), a cache hit
returns the cached report unchanged for any world (no fetch is
performed), and a successful extraction stores exactly the returned
report under its URL. -/
theorem claim_C10_cache_success_invariant (w : ExtractWorld)
    (cache : List (String × ExtractionReport)) (url : String) (fr : Bool) :
    ((∀ p ∈ cache, p.2.success = true) →
      ∀ p ∈ (extractFromUrl w cache url fr).2, p.2.success = true)
    ∧ ((fr = true ∨ cacheLookup cache url = none) →
        (extractFromUrl w cache url fr).1.success = false →
        (extractFromUrl w cache url fr).2 = cache)
    ∧ (∀ rep, cacheLookup cache url = some rep →
        ∀ w2 : ExtractWorld, extractFromUrl w2 cache url false = (rep, cache))
    ∧ ((fr = true ∨ cacheLookup cache url = none) →
        (extractFromUrl w cache url fr).1.success = true →
        ((extractFromUrl w cache url fr).2
            = cacheSet cache url (extractFromUrl w cache url fr).1
         ∧ cacheLookup ((extractFromUrl w cache url fr).2) url
            = some ((extractFromUrl w cache url fr).1))) := by
  refine ⟨?_, ?_, ?_, ?_⟩
  · intro hinv p hp
    by_cases hhit : fr = false ∧ (cacheLookup cache url).isSome
    · obtain ⟨rep, hrep⟩ := Option.isSome_iff_exists.mp hhit.2
      rw [hhit.1, extractFromUrl_cacheHit w cache url rep hrep] at hp
      exact hinv p hp
    · have hguard : fr = true ∨ cacheLookup cache url = none := by
        rcases Bool.eq_false_or_eq_true fr with hfr | hfr
        · left; exact hfr
        · right
          cases hcl : cacheLookup cache url with
          | none => rfl
          | some rep => exact absurd ⟨hfr, by simp [hcl]⟩ hhit
      cases hfetch : w.fetch url with
      | none =>
        rw [extractFromUrl_fetchFail w cache url fr hguard hfetch] at hp
        exact hinv p hp
      | some html =>
        cases hconf : calculateConfidenceScores
            (mergePatternData (w.domainExtract (w.netloc url) html)
              (extractWithPatterns w.patterns (w.cleanText html))) with
        | error e =>
          rw [extractFromUrl_confError w cache url fr html e hguard hfetch hconf] at hp
          exact hinv p hp
        | ok scores =>
          rw [extractFromUrl_success w cache url fr html scores hguard hfetch hconf] at hp
          rcases cacheSet_mem url _ cache p hp with h | h
          · rw [h]
          · exact hinv p h
  · intro hguard hfail
    cases hfetch : w.fetch url with
    | none => rw [extractFromUrl_fetchFail w cache url fr hguard hfetch]
    | some html =>
      cases hconf : calculateConfidenceScores
          (mergePatternData (w.domainExtract (w.netloc url) html)
            (extractWithPatterns w.patterns (w.cleanText html))) with
      | error e => rw [extractFromUrl_confError w cache url fr html e hguard hfetch hconf]
      | ok scores =>
        rw [extractFromUrl_success w cache url fr html scores hguard hfetch hconf] at hfail
        simp at hfail
  · exact fun rep hrep w2 => extractFromUrl_cacheHit w2 cache url rep hrep
  · intro hguard hsucc
    cases hfetch : w.fetch url with
    | none =>
      rw [extractFromUrl_fetchFail w cache url fr hguard hfetch] at hsucc
      simp at hsucc
    | some html =>
      cases hconf : calculateConfidenceScores
          (mergePatternData (w.domainExtract (w.netloc url) html)
            (extractWithPatterns w.patterns (w.cleanText html))) with
      | error e =>
        rw [extractFromUrl_confError w cache url fr html e hguard hfetch hconf] at hsucc
        simp at hsucc
      | ok scores =>
        rw [extractFromUrl_success w cache url fr html scores hguard hfetch hconf]
        exact ⟨rfl, cacheLookup_cacheSet_self url _ cache⟩

/-- C10 witness: a successful extraction is cached under its URL; a failed
extraction leaves the cache empty; a cache hit is returned unchanged even
by a world whose fetch would fail. -/
theorem claim_C10_witness :
    ((extractFromUrl testWorldOk [] "https://example.org/a" false).1.success = true
     ∧ cacheLookup ((extractFromUrl testWorldOk [] "https://example.org/a" false).2)
         "https://example.org/a"
         = some ((extractFromUrl testWorldOk [] "https://example.org/a" false).1))
    ∧ (extractFromUrl testWorldFail [] "https://example.org/a" false).2 = []
    ∧ extractFromUrl testWorldFail cacheC10 "https://example.org/a" false
        = (repC10, cacheC10) := by
  have hok := claim_C10_cache_success_invariant testWorldOk [] "https://example.org/a" false
  have hfail := claim_C10_cache_success_invariant testWorldFail [] "https://example.org/a" false
  have hhit := claim_C10_cache_success_invariant testWorldFail cacheC10 "https://example.org/a" false
  have hsucc : (extractFromUrl testWorldOk [] "https://example.org/a" false).1.success = true := rfl
  exact ⟨⟨hsucc, (hok.2.2.2 (Or.inr rfl) hsucc).2⟩,
    hfail.2.1 (Or.inr rfl) rfl,
    hhit.2.2.1 repC10 rfl testWorldFail⟩

end Glide

namespace Glide

/-- C9 counterexample: on the extracted data map
`{affected: 12500, deaths: 3}` the engine's confidence scoring yields a
score for `deaths` only (0.8); `affected` receives no confidence score at
all — not 0.8 as the claim asserts — because the cascade key `affected`
is not among the plausible-range table keys (the table lists
`affected_population`). -/
theorem claim_C9_counterexample :
    calculateConfidenceScores [("affected", some (.int 12500)), ("deaths", some (.int 3))]
      = .ok [("deaths", 0.8)]
    ∧ confLookup [("deaths", (0.8 : Rat))] "affected" = none := ⟨rfl, rfl⟩

/-- C9 (amended): for a page whose clean text makes the first `affected`
pattern capture "12,500" and the first `deaths` pattern capture "3" (no
other cascade field matching), extraction yields the merged fields
`affected = 12500` and `deaths = 3`; confidence scoring assigns 0.8 to
`deaths` only, `affected` getting no score since the cascade key
`affected` is absent from the range table (which lists
`affected_population`); the feature record built from the merged map
holds `deaths = 3` but `affected_population = None` for the same naming
reason, so its completeness counts 8 of the 44 non-bookkeeping fields
(the seven required ones plus deaths). -/
theorem claim_C9_amended_end_to_end (patterns : String → List Matcher) (text : String)
    (glide dtype season : String) (eventDate : Rat) (month year : Int)
    (h1 : firstValidPattern (patterns "affected") "affected" text = some (.int 12500))
    (h2 : firstValidPattern (patterns "deaths") "deaths" text = some (.int 3))
    (h3 : ∀ f ∈ patternFields, f ≠ "affected" → f ≠ "deaths" →
      firstValidPattern (patterns f) f text = none) :
    extractWithPatterns patterns text = [("affected", .int 12500), ("deaths", .int 3)]
    ∧ dictLookup (mergePatternData [] (extractWithPatterns patterns text)) "affected"
        = some (some (.int 12500))
    ∧ dictLookup (mergePatternData [] (extractWithPatterns patterns text)) "deaths"
        = some (some (.int 3))
    ∧ calculateConfidenceScores (mergePatternData [] (extractWithPatterns patterns text))
        = .ok [("deaths", 0.8)]
    ∧ (createFeaturesFromDict (mergePatternData [] (extractWithPatterns patterns text))
        glide dtype eventDate season month year).affected_population = none
    ∧ (createFeaturesFromDict (mergePatternData [] (extractWithPatterns patterns text))
        glide dtype eventDate season month year).deaths = some (.int 3)
    ∧ calculateCompleteness (some (createFeaturesFromDict
        (mergePatternData [] (extractWithPatterns patterns text))
        glide dtype eventDate season month year)) = 8 / 44 := by
  have h3d := h3 "displaced" (by decide) (by decide) (by decide)
  have h3p := h3 "precipitation" (by decide) (by decide) (by decide)
  have h3e := h3 "economic_loss" (by decide) (by decide) (by decide)
  have h3w := h3 "water_level" (by decide) (by decide) (by decide)
  have hE : extractWithPatterns patterns text
      = [("affected", .int 12500), ("deaths", .int 3)] := by
    simp [extractWithPatterns, patternFields, extractStep, h1, h2, h3d, h3p, h3e, h3w]
  rw [hE]
  exact ⟨rfl, by decide, by decide, rfl, rfl, rfl, rfl⟩

/-- C9 amended witness: the scenario at concrete patterns and inputs. -/
theorem claim_C9_amended_witness :
    extractWithPatterns testPatternsC9 "12,500 people affected and 3 deaths"
      = [("affected", .int 12500), ("deaths", .int 3)]
    ∧ calculateConfidenceScores (mergePatternData []
        (extractWithPatterns testPatternsC9 "12,500 people affected and 3 deaths"))
        = .ok [("deaths", 0.8)]
    ∧ (createFeaturesFromDict (mergePatternData []
        (extractWithPatterns testPatternsC9 "12,500 people affected and 3 deaths"))
        "FL-2024-000123-BRA" "Flood" 0 "summer" 1 2024).affected_population = none
    ∧ calculateCompleteness (some (createFeaturesFromDict (mergePatternData []
        (extractWithPatterns testPatternsC9 "12,500 people affected and 3 deaths"))
        "FL-2024-000123-BRA" "Flood" 0 "summer" 1 2024)) = 8 / 44 := by
  have h := claim_C9_amended_end_to_end testPatternsC9
    "12,500 people affected and 3 deaths" "FL-2024-000123-BRA" "Flood" "summer" 0 1 2024
    rfl rfl
    (by
      intro f hf hne1 hne2
      have hsplit : f = "affected" ∨ f = "deaths" ∨ f = "displaced" ∨ f = "precipitation"
          ∨ f = "economic_loss" ∨ f = "water_level" := by
        simpa [patternFields] using hf
      rcases hsplit with rfl | rfl | rfl | rfl | rfl | rfl
      · exact absurd rfl hne1
      · exact absurd rfl hne2
      · rfl
      · rfl
      · rfl
      · rfl)
  exact ⟨h.1, h.2.2.2.1, h.2.2.2.2.1, h.2.2.2.2.2.2⟩

end Glide
